import Mathlib

/-!
# Verification of the Message Injector plugin's persistence core

This file gives a shallow embedding of the persistence-and-reconciliation
core of the "Message Injector" Vendetta plugin and proves the specified
properties about it.

The repository holds several near-duplicate historical iterations of the
plugin.  We embed the two iterations the claims cite:

* `V103` — the `index.ts` iteration (plugin version 1.0.3, the first
  document in `src/plugins/sev/src/index.ts`);
* `V310` — the `part_000` iteration (plugin version 3.1.0,
  `src/unnamed/part_000`);
* `V32`  — the settings-era iteration (plugin version 3.2.0, the second
  document in `src/plugins/sev/src/settings.tsx`), which carries the full
  `parseColor` / `validateEmbed` pair.

The plugin is JavaScript, so its store state is an arbitrary JavaScript
value (the store is round-tripped through JSON and defensively validated
everywhere).  We therefore model JavaScript values by the inductive
`JSValue` and translate each function of the source over it.  Exceptions
(`TypeError`s from property access on `null`/`undefined`, calling array
methods on non-arrays, strict-mode writes to primitives) are modelled with
`Except String`; a function wrapped in `try`/`catch` in the source is total
in the model, with the `catch` branch made explicit.

Modelling conventions (each noted again at its definition):
* JS numbers are `Int` plus an explicit `nan`; no claim exercises
  fractional values.
* Strings are Lean `String`s; `substring`/length ceilings count characters
  rather than UTF-16 code units.
* Object/array identity (`===` on composites) is modelled as never equal:
  every composite compared by the plugin comes from distinct allocations.
* Array "holes" produced by `delete` are conflated with `undefined`
  elements; the two are observationally equal for every read the plugin
  performs (`Object.keys` skips both under our encoding, `JSON.stringify`
  maps both to `null`).
* Expando (non-index string) properties on arrays are not represented; the
  plugin never reads one back.
-/

/-- A JavaScript value: `undefined`, `null`, booleans, (integer) numbers,
`NaN`, strings, arrays and plain objects (insertion-ordered key/value
lists with unique keys). -/
inductive JSValue where
  | undef
  | null
  | bool (b : Bool)
  | num (n : Int)
  | nan
  | str (s : String)
  | arr (elems : List JSValue)
  | obj (entries : List (String × JSValue))

/-- JS truthiness: `undefined`, `null`, `false`, `0`, `NaN` and `""` are
falsy; every other value (including every array and object) is truthy. -/
def jsTruthy : JSValue → Bool
  | .undef => false
  | .null => false
  | .bool b => b
  | .num n => n != 0
  | .nan => false
  | .str s => s != ""
  | .arr _ => true
  | .obj _ => true

/-- `typeof v === 'string'`. -/
def isStr : JSValue → Bool
  | .str _ => true
  | _ => false

/-- `typeof v === 'number'` (`NaN` is a number). -/
def typeofNumber : JSValue → Bool
  | .num _ => true
  | .nan => true
  | _ => false

/-- `Array.isArray(v)`. -/
def isArr : JSValue → Bool
  | .arr _ => true
  | _ => false

/-- `typeof v === 'object'` (true for `null`, arrays and objects). -/
def typeofObject : JSValue → Bool
  | .null => true
  | .arr _ => true
  | .obj _ => true
  | _ => false

/-- Whether a value is `undefined`. -/
def isUndef : JSValue → Bool
  | .undef => true
  | _ => false

/-- The underlying Lean string of a `JSValue.str` (only used under an
`isStr` guard). -/
def jsStrVal : JSValue → String
  | .str s => s
  | _ => ""

/-- Lookup in an insertion-ordered object entry list. -/
def objGet : List (String × JSValue) → String → Option JSValue
  | [], _ => none
  | (k, v) :: rest, key => if k = key then some v else objGet rest key

/-- Property write on an object entry list: replace in place if the key
exists, append otherwise (JS property-order semantics). -/
def objSet : List (String × JSValue) → String → JSValue → List (String × JSValue)
  | [], key, v => [(key, v)]
  | (k, w) :: rest, key, v =>
    if k = key then (k, v) :: rest else (k, w) :: objSet rest key v

/-- `delete` on an object entry list (keys are unique, so removing the
first occurrence removes the key). -/
def objDelete : List (String × JSValue) → String → List (String × JSValue)
  | [], _ => []
  | (k, w) :: rest, key => if k = key then rest else (k, w) :: objDelete rest key

/-- Canonical array-index keys: `parseIndex "3" = some 3`, while `"03"`,
`""` and non-numeric keys are plain string properties. -/
def parseIndex (key : String) : Option Nat :=
  let cs := key.toList
  if cs ≠ [] ∧ cs.all Char.isDigit then
    let n := cs.foldl (fun a c => a * 10 + (c.toNat - '0'.toNat)) 0
    if toString n = key then some n else none
  else none

/-- Property read, `base[key]`, in strict mode: throws a `TypeError` on
`null`/`undefined` bases; arrays expose `length` and index properties;
strings expose `length` and characters; other primitives yield
`undefined`. -/
def jsGet : JSValue → String → Except String JSValue
  | .undef, key => .error ("TypeError: cannot read " ++ key ++ " of undefined")
  | .null, key => .error ("TypeError: cannot read " ++ key ++ " of null")
  | .obj es, key => .ok ((objGet es key).getD .undef)
  | .arr es, key =>
    if key = "length" then .ok (.num es.length)
    else
      match parseIndex key with
      | some i => .ok ((es.get? i).getD .undef)
      | none => .ok .undef
  | .str s, key =>
    if key = "length" then .ok (.num s.length)
    else
      match parseIndex key with
      | some i =>
        .ok (((s.toList.get? i).map (fun c => JSValue.str (String.singleton c))).getD .undef)
      | none => .ok .undef
  | _, _ => .ok (.undef)

/-- Non-throwing property read: yields `undefined` where `jsGet` would
throw.  Used to model optional chaining (`?.`) and reads whose base the
source has already established to be non-nullish. -/
def getField (v : JSValue) (key : String) : JSValue :=
  match jsGet v key with
  | .ok w => w
  | .error _ => (.undef)

/-- Property write, `base[key] = v`, in strict mode (the plugin is an ES
module): throws on `null`/`undefined`/primitive bases.  In-range array
index writes update the element; other array writes (length extension,
expando properties) are not represented — the plugin never reads one
back. -/
def jsSet : JSValue → String → JSValue → Except String JSValue
  | .obj es, key, v => .ok (.obj (objSet es key v))
  | .arr es, key, v =>
    (match parseIndex key with
     | some i => if i < es.length then .ok (.arr (es.set i v)) else .ok (.arr es)
     | none => .ok (.arr es))
  | .undef, key, _ => .error ("TypeError: cannot set " ++ key ++ " of undefined")
  | .null, key, _ => .error ("TypeError: cannot set " ++ key ++ " of null")
  | _, key, _ => .error ("TypeError: cannot create property " ++ key ++ " on a primitive")

/-- `delete base[key]`: removes an object key; on an array an index delete
leaves a hole, which we conflate with an `undefined` element. -/
def jsDelete : JSValue → String → JSValue
  | .obj es, key => .obj (objDelete es key)
  | .arr es, key =>
    (match parseIndex key with
     | some i => .arr (es.set i .undef)
     | none => .arr es)
  | v, _ => v

/-- JS `a || b`. -/
def jsOr (a b : JSValue) : JSValue := if jsTruthy a then a else b

/-- JS `a ?? b` (nullish coalescing). -/
def jsNullish (a b : JSValue) : JSValue :=
  match a with
  | .undef => b
  | .null => b
  | a => a

/-- Strict equality `===` restricted to the comparisons the plugin makes:
primitives compare by value, `NaN` equals nothing, and composites compare
by reference — every composite pair the plugin compares comes from
distinct allocations, hence `false`. -/
def strictEq : JSValue → JSValue → Bool
  | .undef, .undef => true
  | .null, .null => true
  | .bool a, .bool b => a == b
  | .num a, .num b => a == b
  | .str a, .str b => a == b
  | _, _ => false

/-- SameValueZero (used by `Array.prototype.includes` and `Set`): like
`===` but `NaN` equals `NaN`. -/
def sameValueZero : JSValue → JSValue → Bool
  | .nan, .nan => true
  | a, b => strictEq a b

mutual

/-- JS `String(v)` / template-literal coercion. -/
def jsToString : JSValue → String
  | .undef => "undefined"
  | .null => "null"
  | .bool b => if b then "true" else "false"
  | .num n => toString n
  | .nan => "NaN"
  | .str s => s
  | .arr es => jsListToString es
  | .obj _ => "[object Object]"

/-- `Array.prototype.toString` = `join(',')`; inside `join`, `null` and
`undefined` elements render as the empty string. -/
def jsListToString : List JSValue → String
  | [] => ""
  | [.undef] => ""
  | [.null] => ""
  | [v] => jsToString v
  | .undef :: rest => "," ++ jsListToString rest
  | .null :: rest => "," ++ jsListToString rest
  | v :: rest => jsToString v ++ "," ++ jsListToString rest

end

mutual

/-- `JSON.parse(JSON.stringify(v))` on values that survive it: `NaN`
becomes `null`, array holes/`undefined` elements become `null`, and
object entries with `undefined` values are dropped. -/
def jsonRT : JSValue → JSValue
  | .undef => .undef
  | .null => .null
  | .bool b => .bool b
  | .num n => .num n
  | .nan => .null
  | .str s => .str s
  | .arr es => .arr (jsonRTElems es)
  | .obj es => .obj (jsonRTEntries es)

/-- JSON round-trip of array elements. -/
def jsonRTElems : List JSValue → List JSValue
  | [] => []
  | .undef :: rest => .null :: jsonRTElems rest
  | v :: rest => jsonRT v :: jsonRTElems rest

/-- JSON round-trip of object entries (drops `undefined`-valued keys). -/
def jsonRTEntries : List (String × JSValue) → List (String × JSValue)
  | [] => []
  | (_, .undef) :: rest => jsonRTEntries rest
  | (k, v) :: rest => (k, jsonRT v) :: jsonRTEntries rest

end

/-- `ToNumber` on non-stringy primitives (used by `+` after the stringy
operand cases are peeled off); `none` is `NaN`. -/
def toNumericPrim : JSValue → Option Int
  | .null => some 0
  | .bool b => some (if b then 1 else 0)
  | .num n => some n
  | _ => none

/-- JS `a + b`: string/array/object operands concatenate (via `String`
coercion), otherwise numeric addition with `undefined`/`NaN` poisoning. -/
def jsAdd (a b : JSValue) : JSValue :=
  match a, b with
  | .str _, _ | _, .str _ | .arr _, _ | _, .arr _ | .obj _, _ | _, .obj _ =>
    .str (jsToString a ++ jsToString b)
  | a, b =>
    match toNumericPrim a, toNumericPrim b with
    | some x, some y => .num (x + y)
    | _, _ => .nan

/-- `Object.keys` (total form, for callers that have established the base
is not nullish).  Array holes (our `undefined` elements) have no keys. -/
def jsKeys : JSValue → List String
  | .obj es => es.map Prod.fst
  | .arr es =>
    (List.range es.length).filterMap (fun i =>
      match es.get? i with
      | some .undef => none
      | some _ => some (toString i)
      | none => none)
  | _ => []

/-- `Object.values`, throwing on `null`/`undefined` like the original. -/
def jsValuesE : JSValue → Except String (List JSValue)
  | .undef => .error "TypeError: cannot convert undefined to object"
  | .null => .error "TypeError: cannot convert null to object"
  | .obj es => .ok (es.map Prod.snd)
  | .arr es => .ok (es.filter (fun v => !isUndef v))
  | _ => .ok []

/-- Whether `needle` starts `hay`. -/
def leadMatch : List Char → List Char → Bool
  | _, [] => true
  | [], _ :: _ => false
  | c :: cs, d :: ds => c == d && leadMatch cs ds

/-- Whether `needle` occurs contiguously inside `hay`. -/
def containsRun (needle : List Char) : List Char → Bool
  | [] => leadMatch [] needle
  | c :: rest => leadMatch (c :: rest) needle || containsRun needle rest

/-- `s.startsWith(p)` on strings. -/
def strLeads (s p : String) : Bool := leadMatch s.toList p.toList

/-- `s.substring(n)` / `drop` by characters. -/
def strDrop (s : String) (n : Nat) : String := String.mk (s.toList.drop n)

/-- `split` on a single-character separator. -/
def splitChars (sep : Char) : List Char → List (List Char)
  | [] => [[]]
  | c :: rest =>
    match splitChars sep rest with
    | [] => [[c]]
    | h :: t => if c == sep then [] :: h :: t else (c :: h) :: t

/-- `s.split(sep)` for a one-character separator. -/
def strSplitOn (s : String) (sep : Char) : List String :=
  (splitChars sep s.toList).map String.mk

/-! ## Functions shared verbatim by the 1.0.x and 3.1.0 iterations

`validateUserId`, `validateTimestamp`, the simple `validateEmbed`,
`getUserInfo`, `generateMessageId`, `createMessageObject` and
`savePersistentMessages` appear with identical bodies in
`src/plugins/sev/src/index.ts` (v1.0.3) and `src/unnamed/part_000`
(v3.1.0) — the 3.1.0 copies only add calls to `sendWebhookLog`, which is
guarded by `storage.webhookEnabled` (default `false`), wraps its whole
body in `try`/`catch`, and touches no plugin state; it is modelled as a
no-op. -/

/-- The host environment (Discord client internals) as the plugin sees it.
Each field collapses a host API the source calls through its own
`try`/`catch`-guarded helper. -/
structure Host where
  /-- `UserStore.getUser?.(userId)`: `none` when the store is missing or
  has no such user. -/
  getUser : String → Option JSValue
  /-- `ensureDMChannel(userId)` (which chains `getDMFromUserId`, a channel
  scan and a `CHANNEL_SELECT` nudge, all under `try`/`catch`): the DM
  channel id, or `none` for the `null` outcome. -/
  ensureDM : String → Option String
  /-- `new Date(v).toISOString()` — `some iso` when the date is valid,
  `none` when `isNaN(date.getTime())` or construction throws. -/
  parseDate : JSValue → Option String
  /-- `new Date().toISOString()`. -/
  nowISO : String
  /-- `Date.now()`. -/
  now : Nat
  /-- `Math.floor(Math.random() * 4096)`. -/
  rand : Nat
  /-- Whether `FluxDispatcher` is available and `dispatch` returns without
  throwing. -/
  dispatchOk : Bool

/-- `String.prototype.trim`, modelled on ASCII whitespace (the claims
exercise no exotic Unicode whitespace). -/
def jsTrim (s : String) : String :=
  String.mk (((s.toList.dropWhile Char.isWhitespace).reverse.dropWhile
    Char.isWhitespace).reverse)

/-- `validateUserId`: non-strings and falsy values fail; otherwise the
trimmed string must match `/^\d+$/`. -/
def validateUserId (userId : JSValue) : Bool :=
  if !jsTruthy userId || !isStr userId then false
  else
    let t := jsTrim (jsStrVal userId)
    t != "" && t.toList.all Char.isDigit

/-- `validateTimestamp`: falsy input or an unparsable date falls back to
the current time, otherwise the normalized ISO form is returned. -/
def validateTimestamp (host : Host) (timestamp : JSValue) : String :=
  if !jsTruthy timestamp then host.nowISO
  else
    match host.parseDate timestamp with
    | none => host.nowISO
    | some iso => iso

/-- `substring(0, n)` modelled by character truncation. -/
def strTake (s : String) (n : Nat) : String := String.mk (s.toList.take n)

/-- `v.substring(0, n)`: only strings have `substring`. -/
def jsSubstring (v : JSValue) (n : Nat) : Except String JSValue :=
  match v with
  | .str s => .ok (.str (strTake s n))
  | _ => .error "TypeError: substring is not a function"

/-- `v.startsWith(p)`: only strings have `startsWith`. -/
def jsStartsWith (v : JSValue) (p : String) : Except String Bool :=
  match v with
  | .str s => .ok (strLeads s p)
  | _ => .error "TypeError: startsWith is not a function"

/-- `random.toString().padStart(4, '0')`. -/
def padStart4 (s : String) : String :=
  if s.length ≥ 4 then s else String.mk (List.replicate (4 - s.length) '0') ++ s

/-- `generateMessageId`: wall-clock milliseconds concatenated with a
zero-padded random suffix. -/
def generateMessageId (host : Host) : String :=
  toString host.now ++ padStart4 (toString host.rand)

namespace V103

/-- The simple `validateEmbed` of the 1.0.x/3.1.0 iterations
(`index.ts` lines 81–110): copies only `title`, `description`,
`image.url` and `thumbnail.url`, truncating the strings; returns
`undefined` (here `none`) when nothing beyond `type` was recognized. -/
def validateEmbed (embed : JSValue) : Option JSValue :=
  if !jsTruthy embed then none
  else
    let ve0 : List (String × JSValue) := [("type", .str "rich")]
    let t := getField embed "title"
    let ve1 := if jsTruthy t && isStr t then objSet ve0 "title" (.str (strTake (jsStrVal t) 256)) else ve0
    let d := getField embed "description"
    let ve2 := if jsTruthy d && isStr d then objSet ve1 "description" (.str (strTake (jsStrVal d) 4096)) else ve1
    let iu := getField (getField embed "image") "url"
    let ve3 := if jsTruthy iu && isStr iu then objSet ve2 "image" (.obj [("url", iu)]) else ve2
    let tu := getField (getField embed "thumbnail") "url"
    let ve4 := if jsTruthy tu && isStr tu then objSet ve3 "thumbnail" (.obj [("url", tu)]) else ve3
    if ve4.length > 1 then some (.obj ve4) else none

/-- The fallback user info returned when the user store yields nothing (or
`getUserInfo`'s `try` block throws). -/
def fallbackUserInfo : JSValue :=
  .obj [("username", .str "Unknown User"), ("discriminator", .str "0"),
        ("avatar", .null), ("public_flags", .num 0)]

/-- Body of `getUserInfo`'s `try` block: reads display metadata off the
host's user record, building the avatar CDN URL (`startsWith` throws on a
truthy non-string avatar, caught by the wrapper) and the optional avatar
decoration and clan sub-objects. -/
def getUserInfoInner (host : Host) (userId : String) : Except String JSValue := do
  match host.getUser userId with
  | none => pure fallbackUserInfo
  | some user =>
    if !jsTruthy user then pure fallbackUserInfo
    else do
      let avatarVal := getField user "avatar"
      let avatar ←
        if jsTruthy avatarVal then do
          let gif ← jsStartsWith avatarVal "a_"
          pure (JSValue.str ("https://cdn.discordapp.com/avatars/" ++ userId ++ "/" ++
            jsToString avatarVal ++ "." ++ (if gif then "gif" else "png")))
        else pure JSValue.null
      let info0 : List (String × JSValue) :=
        [("username", jsOr (getField user "username") (.str "Unknown User")),
         ("discriminator", jsOr (getField user "discriminator") (.str "0")),
         ("global_name", jsOr (jsOr (getField user "globalName") (getField user "global_name")) .undef),
         ("avatar", avatar),
         ("public_flags", jsOr (jsOr (getField user "publicFlags") (getField user "public_flags")) (.num 0))]
      let deco := jsOr (getField user "avatarDecorationData") (getField user "avatar_decoration_data")
      let decoLegacy := jsOr (getField user "avatarDecoration") (getField user "avatar_decoration")
      let info1 :=
        if jsTruthy deco then
          objSet info0 "avatar_decoration_data"
            (.obj [("asset", getField deco "asset"),
                   ("sku_id", jsOr (getField deco "skuId") (getField deco "sku_id"))])
        else if jsTruthy decoLegacy then
          objSet info0 "avatar_decoration_data"
            (.obj [("asset", decoLegacy), ("sku_id", .undef)])
        else info0
      let clanData := jsOr (jsOr (getField user "clan") (getField user "primaryGuild")) (getField user "primary_guild")
      let info2 :=
        if jsTruthy clanData then
          objSet info1 "clan"
            (.obj [("identity_guild_id",
                     jsOr (jsOr (getField clanData "identityGuildId") (getField clanData "identity_guild_id")) .null),
                   ("identity_enabled",
                     jsNullish (jsNullish (getField clanData "identityEnabled") (getField clanData "identity_enabled")) (.bool false)),
                   ("tag", jsOr (getField clanData "tag") .null),
                   ("badge", jsOr (getField clanData "badge") .null)])
        else info1
      pure (.obj info2)

/-- `getUserInfo`: total — its body is one `try`/`catch` falling back to
the `Unknown User` record. -/
def getUserInfo (host : Host) (userId : String) : JSValue :=
  match getUserInfoInner host userId with
  | .ok v => v
  | .error _ => fallbackUserInfo

/-- `avatar ? avatar.split('/').pop()?.split('.')[0] : null` — the hash
part of an avatar URL; `split` throws on a truthy non-string. -/
def avatarHash (avatar : JSValue) : Except String JSValue :=
  if jsTruthy avatar then
    match avatar with
    | .str s => .ok (.str ((strSplitOn ((strSplitOn s '/').getLastD "") '.').headD ""))
    | _ => .error "TypeError: split is not a function"
  else .ok .null

/-- Options record of `createMessageObject`. -/
structure CreateMsgOptions where
  channelId : JSValue := .undef
  userId : JSValue := .undef
  content : JSValue := .undef
  username : JSValue := .undef
  avatar : JSValue := .undef
  embed : JSValue := .undef
  timestamp : JSValue := .undef
  messageId : JSValue := (.undef)

/-- `createMessageObject`: validates the sender id (throwing
`Invalid user ID` otherwise), resolves user display metadata, normalizes
timestamp and embed, and assembles the immutable message record. -/
def createMessageObject (host : Host) (o : CreateMsgOptions) : Except String JSValue := do
  if !validateUserId o.userId then .error "Error: Invalid user ID"
  else do
    let userInfo := getUserInfo host (jsStrVal o.userId)
    let username := jsOr o.username (getField userInfo "username")
    let avatar := jsOr o.avatar (getField userInfo "avatar")
    let timestamp := validateTimestamp host o.timestamp
    let validEmbed := validateEmbed o.embed
    let avatarField ← avatarHash avatar
    let contentVal ← jsSubstring (jsOr o.content (.str "")) 2000
    let msgId := jsOr o.messageId (.str (generateMessageId host))
    pure (.obj
      [("id", msgId),
       ("channel_id", o.channelId),
       ("author", .obj
         [("id", o.userId),
          ("username", jsOr username (.str "Unknown User")),
          ("global_name", getField userInfo "global_name"),
          ("discriminator", jsOr (getField userInfo "discriminator") (.str "0")),
          ("avatar", avatarField),
          ("avatar_decoration_data", getField userInfo "avatar_decoration_data"),
          ("clan", getField userInfo "clan"),
          ("public_flags", jsOr (getField userInfo "public_flags") (.num 0)),
          ("bot", .bool false)]),
       ("content", contentVal),
       ("timestamp", .str timestamp),
       ("edited_timestamp", .null),
       ("tts", .bool false),
       ("mention_everyone", .bool false),
       ("mentions", .arr []),
       ("mention_roles", .arr []),
       ("attachments", .arr []),
       ("embeds", match validEmbed with | some e => .arr [e] | none => .arr []),
       ("reactions", .arr []),
       ("pinned", .bool false),
       ("type", .num 0),
       ("flags", .num 0)])

/-- `injectMessage`: one `FluxDispatcher.dispatch('MESSAGE_CREATE', …)`
under `try`/`catch`, returning whether the dispatch went through.  The
delayed `acknowledgeMessages`/`updateChannelState` dispatches touch only
host UI state, never the persistence store. -/
def injectMessage (host : Host) (_message : JSValue) (_silent : Bool) : Bool :=
  host.dispatchOk

/-- `savePersistentMessages`: resets non-object stores, purges non-array
channel entries, then round-trips the store through JSON to strip
non-serializable data; its `catch` (reachable for a `null` store, whose
`Object.keys` throws) resets the store. -/
def savePersistentMessages (pm : JSValue) : JSValue :=
  match pm with
  | .obj es => jsonRT (.obj (es.filter (fun kv => isArr kv.2)))
  | .arr es => jsonRT (.arr (es.map (fun v => if isArr v then v else .undef)))
  | _ => .obj []

end V103

namespace V103

/-- Options record of `fakeMessage`.  Console callers can pass anything,
so every field is a raw JS value; an absent option is `undefined`. -/
structure FakeMessageOptions where
  targetUserId : JSValue := .undef
  channelId : JSValue := .undef
  fromUserId : JSValue := .undef
  content : JSValue := .undef
  username : JSValue := .undef
  avatar : JSValue := .undef
  embed : JSValue := .undef
  persistent : JSValue := (.undef)

/-- The `options.persistent` block of `fakeMessage` (v1.0.3, `index.ts`
lines 495–501): initialize the channel's list when falsy, then push the
message **unconditionally**.  Throws when the existing entry is a truthy
non-array (`.push` undefined) or when the store itself is nullish or a
primitive; every throw happens before any mutation. -/
def persistMessage (pm : JSValue) (key : String) (message : JSValue) :
    Except String JSValue := do
  let cur ← jsGet pm key
  let pm1 ← if !jsTruthy cur then jsSet pm key (.arr []) else pure pm
  let cur1 ← jsGet pm1 key
  match cur1 with
  | .arr msgs => jsSet pm1 key (.arr (msgs ++ [message]))
  | _ => .error "TypeError: push is not a function"

/-- `fakeMessage` (v1.0.3): validates ids, resolves the channel, builds the
message, persists it when `options.persistent` is truthy, then injects.
The whole body sits in one `try`/`catch` returning `false`; the catch can
only fire before the store is mutated, so the erroring paths return the
store unchanged.  The result is `(returned boolean, new store value)`. -/
def fakeMessage (host : Host) (opts : FakeMessageOptions) (pm : JSValue) :
    Bool × JSValue :=
  if !validateUserId opts.fromUserId then (false, pm)
  else if !jsTruthy opts.channelId && jsTruthy opts.targetUserId
          && !validateUserId opts.targetUserId then (false, pm)
  else
    let channelVal : JSValue :=
      if !jsTruthy opts.channelId && jsTruthy opts.targetUserId then
        match host.ensureDM (jsStrVal opts.targetUserId) with
        | some c => .str c
        | none => .null
      else opts.channelId
    if !jsTruthy channelVal then (false, pm)
    else
      match createMessageObject host
        { channelId := channelVal, userId := opts.fromUserId,
          content := opts.content, username := opts.username,
          avatar := opts.avatar, embed := opts.embed } with
      | .error _ => (false, pm)
      | .ok message =>
        if jsTruthy opts.persistent then
          match persistMessage pm (jsToString channelVal) message with
          | .error _ => (false, pm)
          | .ok pm1 => (injectMessage host message false, savePersistentMessages pm1)
        else (injectMessage host message false, pm)

/-- `clearAllMessages` (v1.0.3): reset the store and save; the returned
flag is the success toast.  Total — nothing in it can throw. -/
def clearAllMessages (_pm : JSValue) : JSValue × Bool :=
  (savePersistentMessages (.obj []), true)

/-- `clearChannelMessages` (v1.0.3): when the channel's entry is truthy,
delete that key, save and toast; otherwise do nothing.  The guard's
property read throws on a nullish store.  Result carries the new store
and whether the save-and-toast branch ran. -/
def clearChannelMessages (pm : JSValue) (channelId : String) :
    Except String (JSValue × Bool) := do
  let cur ← jsGet pm channelId
  if jsTruthy cur then pure (savePersistentMessages (jsDelete pm channelId), true)
  else pure (pm, false)

/-- `getAllMessages`: returns the store. -/
def getAllMessages (pm : JSValue) : JSValue := pm

/-- `quickTest`: `fakeMessage` with a fixed content and `persistent: true`. -/
def quickTest (host : Host) (targetUserId fromUserId : JSValue) (pm : JSValue) :
    Bool × JSValue :=
  fakeMessage host
    { targetUserId := targetUserId, fromUserId := fromUserId,
      content := .str "Test message from Message Injector plugin! 🎉",
      persistent := .bool true } pm

/-- The per-message predicate of `recoverStorage`'s filter:
`msg && msg.id && msg.channel_id && msg.author && msg.timestamp`. -/
def msgRequiredOk (msg : JSValue) : Bool :=
  jsTruthy msg && jsTruthy (getField msg "id") && jsTruthy (getField msg "channel_id")
    && jsTruthy (getField msg "author") && jsTruthy (getField msg "timestamp")

/-- One channel entry under recovery: non-arrays are deleted; arrays are
filtered by the required-field predicate and deleted when emptied. -/
def recoverChannelEntry (v : JSValue) : Option JSValue :=
  match v with
  | .arr msgs =>
    let kept := msgs.filter msgRequiredOk
    if kept.length = 0 then none else some (.arr kept)
  | _ => none

/-- `recoverStorage` (v1.0.3, `index.ts` lines 719–749): resets stores that
fail `typeof === 'object'` or are `null`, recovers each channel entry,
then saves.  An array store passes the `typeof` guard; its deleted
elements become holes (kept as `undefined`, turned into `null` by the
JSON round-trip inside the save). -/
def recoverStorage (pm : JSValue) : JSValue :=
  if !typeofObject pm then .obj []
  else
    match pm with
    | .null => .obj []
    | .obj es =>
      savePersistentMessages (.obj (es.filterMap (fun kv =>
        (recoverChannelEntry kv.2).map (fun v => (kv.1, v)))))
    | .arr es =>
      savePersistentMessages (.arr (es.map (fun v =>
        match v with
        | .undef => .undef
        | w => (recoverChannelEntry w).getD .undef)))
    | _ => .obj []

end V103

/-! ## The dispatch interceptor (`setupMessagePersistence`, v1.0.3) -/

/-- The plugin-controlled flags and store the interceptor reads
(`storage.enabled`, `storage.preventMessageDeletion`,
`storage.persistentMessages`; `debug` only gates logging). -/
structure Storage where
  enabled : Bool
  preventMessageDeletion : Bool
  persistentMessages : JSValue

/-- A callback the interceptor schedules with `setTimeout`. -/
inductive SchedAction where
  /-- `setTimeout(() => injectMessage(fakeMessage, true), 100)`. -/
  | injectLater (message : JSValue)
  /-- `setTimeout(() => reinjectMessagesForChannel(channelId, force), …)`. -/
  | reinjectChannel (channelId : String) (force : Bool)

/-- `messages.find(m => m.id === messageId)`: the callback's `m.id` read
throws on a `null`/`undefined` element. -/
def findById (msgs : List JSValue) (messageId : JSValue) :
    Except String (Option JSValue) :=
  match msgs with
  | [] => .ok none
  | m :: rest => do
    let idv ← jsGet m "id"
    if strictEq idv messageId then pure (some m) else findById rest messageId

/-- `haystack.includes(x)`: SameValueZero membership for arrays, substring
search (after `String` coercion of the argument) for strings, a
`TypeError` otherwise. -/
def jsIncludes (haystack : JSValue) (x : JSValue) : Except String Bool :=
  match haystack with
  | .arr l => .ok (l.any (fun e => sameValueZero e x))
  | .str s => .ok (containsRun (jsToString x).toList s.toList)
  | _ => .error "TypeError: includes is not a function"

/-- `messages.some(m => ids.includes(m.id))`. -/
def someIncluded (msgs : List JSValue) (idsVal : JSValue) : Except String Bool :=
  match msgs with
  | [] => .ok false
  | m :: rest => do
    let idv ← jsGet m "id"
    let b ← jsIncludes idsVal idv
    if b then pure true else someIncluded rest idsVal

/-- The event the interceptor substitutes for a suppressed deletion. -/
def noopEvent : JSValue := .obj [("type", .str "NOOP")]

/-- The `before('dispatch', …)` interceptor installed by
`setupMessagePersistence` (v1.0.3, `index.ts` lines 570–626): given the
storage, the startup flag and the incoming event, returns the (possibly
replaced) event together with the scheduled callbacks, or the `TypeError`
the un-guarded callback would propagate.  The branches each test the
*original* event (captured before any replacement), exactly as the
source's `const event = args[0]` does. -/
def interceptDispatch (st : Storage) (startupComplete : Bool) (event : JSValue) :
    Except String (JSValue × List SchedAction) := do
  if !st.enabled then pure (event, [])
  else if !jsTruthy event || !jsTruthy (getField event "type") then pure (event, [])
  else do
    let etype := getField event "type"
    -- `MESSAGE_DELETE`: a matching stored fake message suppresses the event
    -- and schedules its re-injection.
    let step1 ←
      if st.preventMessageDeletion && strictEq etype (.str "MESSAGE_DELETE") then do
        let messageId := getField event "id"
        let channelId := getField event "channelId"
        if jsTruthy channelId then do
          let entry ← jsGet st.persistentMessages (jsToString channelId)
          if jsTruthy entry then
            match entry with
            | .arr msgs => do
              match (← findById msgs messageId) with
              | some fake => pure (noopEvent, [SchedAction.injectLater fake])
              | none => pure (event, ([] : List SchedAction))
            | _ => .error "TypeError: find is not a function"
          else pure (event, [])
        else pure (event, [])
      else pure (event, [])
    -- `MESSAGE_DELETE_BULK`: any matching id suppresses the whole event and
    -- schedules a forced channel re-injection.
    let step2 ←
      if st.preventMessageDeletion && strictEq etype (.str "MESSAGE_DELETE_BULK") then do
        let channelId := getField event "channelId"
        if jsTruthy channelId then do
          let entry ← jsGet st.persistentMessages (jsToString channelId)
          if jsTruthy entry then do
            let idsVal := jsOr (getField event "ids") (.arr [])
            match entry with
            | .arr msgs => do
              let hasFake ← someIncluded msgs idsVal
              if hasFake then
                pure (noopEvent, [SchedAction.reinjectChannel (jsToString channelId) true])
              else pure (step1.1, ([] : List SchedAction))
            | _ => .error "TypeError: some is not a function"
          else pure (step1.1, [])
        else pure (step1.1, [])
      else pure (step1.1, [])
    -- `LOAD_MESSAGES_SUCCESS`: delayed re-injection for the loaded channel.
    let acts3 ←
      if strictEq etype (.str "LOAD_MESSAGES_SUCCESS") then do
        let channelId := getField event "channelId"
        if jsTruthy channelId then do
          let entry ← jsGet st.persistentMessages (jsToString channelId)
          if jsTruthy entry then
            pure [SchedAction.reinjectChannel (jsToString channelId) false]
          else pure ([] : List SchedAction)
        else pure []
      else pure []
    -- `CONNECTION_OPEN` (after startup): forced re-injection of every channel.
    let acts4 ←
      if strictEq etype (.str "CONNECTION_OPEN") && startupComplete then
        match st.persistentMessages with
        | .undef => .error "TypeError: cannot convert undefined to object"
        | .null => .error "TypeError: cannot convert null to object"
        | v => pure ((jsKeys v).map (fun c => SchedAction.reinjectChannel c true))
      else pure []
    pure (step2.1, step1.2 ++ step2.2 ++ acts3 ++ acts4)

namespace V310

/-! The 3.1.0 iteration (`src/unnamed/part_000`).  Its `validateUserId`,
`validateTimestamp`, `validateEmbed`, `getUserInfo`, `generateMessageId`
and `createMessageObject` are byte-identical to the 1.0.3 ones modulo
webhook-log calls (no-ops here), so the `V103` definitions are reused;
only the functions whose bodies differ are re-translated. -/

/-- The `options.persistent` block of the 3.1.0 `fakeMessage`
(`part_000` lines 753–764): unlike 1.0.3 it collects the existing ids
into a `Set` and pushes only when the new message's id is absent. -/
def persistMessage (pm : JSValue) (key : String) (message : JSValue) :
    Except String JSValue := do
  let cur ← jsGet pm key
  let pm1 ← if !jsTruthy cur then jsSet pm key (.arr []) else pure pm
  let cur1 ← jsGet pm1 key
  match cur1 with
  | .arr msgs => do
    let existingIds ← msgs.mapM (fun m => jsGet m "id")
    let mid ← jsGet message "id"
    if existingIds.any (fun x => sameValueZero x mid) then pure pm1
    else jsSet pm1 key (.arr (msgs ++ [message]))
  | _ => .error "TypeError: map is not a function"

/-- `fakeMessage` (v3.1.0): identical control flow to the 1.0.3 one —
validation, channel resolution, message construction, optional persist,
inject — with the deduplicating persist block. -/
def fakeMessage (host : Host) (opts : V103.FakeMessageOptions) (pm : JSValue) :
    Bool × JSValue :=
  if !validateUserId opts.fromUserId then (false, pm)
  else if !jsTruthy opts.channelId && jsTruthy opts.targetUserId
          && !validateUserId opts.targetUserId then (false, pm)
  else
    let channelVal : JSValue :=
      if !jsTruthy opts.channelId && jsTruthy opts.targetUserId then
        match host.ensureDM (jsStrVal opts.targetUserId) with
        | some c => .str c
        | none => .null
      else opts.channelId
    if !jsTruthy channelVal then (false, pm)
    else
      match V103.createMessageObject host
        { channelId := channelVal, userId := opts.fromUserId,
          content := opts.content, username := opts.username,
          avatar := opts.avatar, embed := opts.embed } with
      | .error _ => (false, pm)
      | .ok message =>
        if jsTruthy opts.persistent then
          match persistMessage pm (jsToString channelVal) message with
          | .error _ => (false, pm)
          | .ok pm1 => (V103.injectMessage host message false, V103.savePersistentMessages pm1)
        else (V103.injectMessage host message false, pm)

/-- The count in the 3.1.0 `clearAllMessages`:
`Object.values(pm).reduce((acc, msgs) => acc + msgs.length, 0)`.
The `.length` read throws on a `null`/`undefined` channel value. -/
def countAllMessages (pm : JSValue) : Except String JSValue := do
  let vals ← jsValuesE pm
  vals.foldlM (fun acc msgs => do
    let len ← jsGet msgs "length"
    pure (jsAdd acc len)) (JSValue.num 0)

/-- `clearAllMessages` (v3.1.0, `part_000` lines 975–993): counts the
stored messages (for the webhook log), resets the store, saves and
toasts.  Unlike 1.0.3 it has **no** `try`/`catch`, so the count's
`TypeError` on a corrupted entry propagates to the caller. -/
def clearAllMessages (pm : JSValue) : Except String (JSValue × Bool) := do
  let _count ← countAllMessages pm
  pure (V103.savePersistentMessages (.obj []), true)

/-- `clearChannelMessages` (v3.1.0): like 1.0.3 plus a `length` read of
the (truthy, hence non-nullish) entry for the webhook log. -/
def clearChannelMessages (pm : JSValue) (channelId : String) :
    Except String (JSValue × Bool) := do
  let cur ← jsGet pm channelId
  if jsTruthy cur then do
    let _count ← jsGet cur "length"
    pure (V103.savePersistentMessages (jsDelete pm channelId), true)
  else pure (pm, false)

end V310

namespace V32

/-! The 3.2.0 iteration (second document of
`src/plugins/sev/src/settings.tsx`), source of `parseColor` and the full
`validateEmbed`. -/

/-- One hexadecimal digit. -/
def hexDigitVal (c : Char) : Option Nat :=
  if '0' ≤ c ∧ c ≤ '9' then some (c.toNat - '0'.toNat)
  else if 'a' ≤ c ∧ c ≤ 'f' then some (c.toNat - 'a'.toNat + 10)
  else if 'A' ≤ c ∧ c ≤ 'F' then some (c.toNat - 'A'.toNat + 10)
  else none

/-- Longest leading run of hex digits; `none` (JS `NaN`) when there is
none. -/
def parseHexRun (cs : List Char) (acc : Nat) (seen : Bool) : Option Nat :=
  match cs with
  | [] => if seen then some acc else none
  | c :: rest =>
    match hexDigitVal c with
    | some d => parseHexRun rest (acc * 16 + d) true
    | none => if seen then some acc else none

/-- `parseInt(s, 16)`: optional sign, optional `0x`/`0X`, then the longest
hex-digit run; `NaN` (`none`) when no digit follows. -/
def jsParseIntHex (s : String) : Option Int :=
  let t := jsTrim s
  let (neg, t1) :=
    if strLeads t "-" then (true, strDrop t 1)
    else if strLeads t "+" then (false, strDrop t 1)
    else (false, t)
  let t2 := if strLeads t1 "0x" || strLeads t1 "0X" then strDrop t1 2 else t1
  match parseHexRun t2.toList 0 false with
  | some n => some (if neg then -(n : Int) else (n : Int))
  | none => none

/-- `Number(s)` restricted to the integer numerals the claims exercise:
an empty (trimmed) string is `0`, decimal and `0x` numerals convert, and
everything else — including fractional numerals, which the integer value
model does not represent — is `NaN` (`none`). -/
def jsToNumberStr (s : String) : Option Int :=
  let t := jsTrim s
  if t = "" then some 0
  else if strLeads t "0x" || strLeads t "0X" then
    match parseHexRun (strDrop t 2).toList 0 false with
    | some n =>
      if (strDrop t 2).toList.all (fun c => (hexDigitVal c).isSome) then some (n : Int) else none
    | none => none
  else
    let (neg, t1) :=
      if strLeads t "-" then (true, strDrop t 1)
      else if strLeads t "+" then (false, strDrop t 1)
      else (false, t)
    if t1 ≠ "" ∧ t1.toList.all Char.isDigit then
      some ((if neg then -1 else 1) *
        (t1.toList.foldl (fun a c => a * 10 + (c.toNat - '0'.toNat)) 0 : Int))
    else none

/-- `parseColor` (settings.tsx 3.2.0, lines 452–472): numbers pass
through, `#`-prefixed and `0x`-prefixed strings parse as hex, other
numeric strings via `Number`; anything else is `undefined`. -/
def parseColor (colorInput : JSValue) : Option JSValue :=
  match colorInput with
  | .num n => some (.num n)
  | .nan => some .nan
  | .str s =>
    let colorStr := jsTrim s
    if strLeads colorStr "#" then
      match jsParseIntHex (strDrop colorStr 1) with
      | some n => some (.num n)
      | none => none
    else if strLeads colorStr "0x" then
      match jsParseIntHex colorStr with
      | some n => some (.num n)
      | none => none
    else
      match jsToNumberStr colorStr with
      | some n => some (.num n)
      | none => none
  | _ => none

/-! The full `validateEmbed` (settings.tsx 3.2.0, lines 613–721) is a
sequence of independent copy-one-recognized-field statements over the
`validEmbed` accumulator; each statement is translated as one `step…`
function on the entry list, and `validateEmbed` chains them in source
order.  Nothing in the body can throw, so its `try`/`catch` is dead. -/

namespace EmbedStep

/-- `if (embed.title && typeof embed.title === 'string')
validEmbed.title = embed.title.substring(0, 256)`. -/
def stepTitle (embed : JSValue) (es : List (String × JSValue)) : List (String × JSValue) :=
  let t := getField embed "title"
  if jsTruthy t && isStr t then objSet es "title" (.str (strTake (jsStrVal t) 256)) else es

/-- `validEmbed.description = embed.description.substring(0, 4096)`. -/
def stepDescription (embed : JSValue) (es : List (String × JSValue)) : List (String × JSValue) :=
  let d := getField embed "description"
  if jsTruthy d && isStr d then objSet es "description" (.str (strTake (jsStrVal d) 4096)) else es

/-- `validEmbed.url = embed.url`. -/
def stepUrl (embed : JSValue) (es : List (String × JSValue)) : List (String × JSValue) :=
  let u := getField embed "url"
  if jsTruthy u && isStr u then objSet es "url" u else es

/-- `validEmbed.timestamp = validateTimestamp(embed.timestamp)`. -/
def stepTimestamp (host : Host) (embed : JSValue) (es : List (String × JSValue)) :
    List (String × JSValue) :=
  let ts := getField embed "timestamp"
  if jsTruthy ts && isStr ts then objSet es "timestamp" (.str (validateTimestamp host ts)) else es

/-- `if (typeof embed.color === 'number') validEmbed.color = embed.color`. -/
def stepColor (embed : JSValue) (es : List (String × JSValue)) : List (String × JSValue) :=
  let c := getField embed "color"
  if typeofNumber c then objSet es "color" c else es

/-- The footer block: `validEmbed.footer = {}` plus the guarded `text`
(truncated to 2048) and `icon_url` copies. -/
def stepFooter (embed : JSValue) (es : List (String × JSValue)) : List (String × JSValue) :=
  let f := getField embed "footer"
  if jsTruthy f && typeofObject f then
    let ft := getField f "text"
    let fo1 : List (String × JSValue) :=
      if jsTruthy ft && isStr ft then [("text", .str (strTake (jsStrVal ft) 2048))] else []
    let fi := getField f "icon_url"
    let fo2 := if jsTruthy fi && isStr fi then objSet fo1 "icon_url" fi else fo1
    objSet es "footer" (.obj fo2)
  else es

/-- The image block: `{ url }` plus numeric `width`/`height`. -/
def stepImage (embed : JSValue) (es : List (String × JSValue)) : List (String × JSValue) :=
  let iu := getField (getField embed "image") "url"
  if jsTruthy iu && isStr iu then
    let iw := getField (getField embed "image") "width"
    let ih := getField (getField embed "image") "height"
    let io1 : List (String × JSValue) := [("url", iu)]
    let io2 := if typeofNumber iw then objSet io1 "width" iw else io1
    let io3 := if typeofNumber ih then objSet io2 "height" ih else io2
    objSet es "image" (.obj io3)
  else es

/-- The thumbnail block: `validEmbed.thumbnail = { url: … }`. -/
def stepThumbnail (embed : JSValue) (es : List (String × JSValue)) : List (String × JSValue) :=
  let tu := getField (getField embed "thumbnail") "url"
  if jsTruthy tu && isStr tu then objSet es "thumbnail" (.obj [("url", tu)]) else es

/-- The author block: `{}` plus guarded `name` (truncated to 256), `url`,
`icon_url`. -/
def stepAuthor (embed : JSValue) (es : List (String × JSValue)) : List (String × JSValue) :=
  let a := getField embed "author"
  if jsTruthy a && typeofObject a then
    let an := getField a "name"
    let ao1 : List (String × JSValue) :=
      if jsTruthy an && isStr an then [("name", .str (strTake (jsStrVal an) 256))] else []
    let au := getField a "url"
    let ao2 := if jsTruthy au && isStr au then objSet ao1 "url" au else ao1
    let ai := getField a "icon_url"
    let ao3 := if jsTruthy ai && isStr ai then objSet ao2 "icon_url" ai else ao2
    objSet es "author" (.obj ao3)
  else es

/-- The provider block: `{}` plus guarded string `name`/`url`. -/
def stepProvider (embed : JSValue) (es : List (String × JSValue)) : List (String × JSValue) :=
  let p := getField embed "provider"
  if jsTruthy p && typeofObject p then
    let pn := getField p "name"
    let po1 : List (String × JSValue) :=
      if jsTruthy pn && isStr pn then [("name", pn)] else []
    let pu := getField p "url"
    let po2 := if jsTruthy pu && isStr pu then objSet po1 "url" pu else po1
    objSet es "provider" (.obj po2)
  else es

/-- One entry of the `fields` mapping: `null` for non-object or
name/value-less fields, otherwise name truncated to 256, value to 1024
(after `String(…)` coercion) and a booleanized `inline`. -/
def mapField (field : JSValue) : Option JSValue :=
  if !jsTruthy field || !typeofObject field then none
  else if !jsTruthy (getField field "name") || !jsTruthy (getField field "value") then none
  else some (JSValue.obj
    [("name", .str (strTake (jsToString (getField field "name")) 256)),
     ("value", .str (strTake (jsToString (getField field "value")) 1024)),
     ("inline", .bool (jsTruthy (getField field "inline")))])

/-- The fields block: requires `Array.isArray(embed.fields)` (a non-array
value leaves the accumulator untouched), takes the first 25 entries
(`slice(0, 25)`), maps and filters them, and stores the result only when
non-empty. -/
def stepFields (embed : JSValue) (es : List (String × JSValue)) : List (String × JSValue) :=
  match getField embed "fields" with
  | .arr fieldsList =>
    let validFields := (fieldsList.take 25).filterMap mapField
    if validFields.length > 0 then objSet es "fields" (.arr validFields) else es
  | _ => es

end EmbedStep

/-- The full `validateEmbed`: falsy embeds are rejected, the recognized
fields are copied in source order over `{type: 'rich'}`, and the result
is `undefined` (`none`) unless something beyond `type` was recognized. -/
def validateEmbed (host : Host) (embed : JSValue) : Option JSValue :=
  if !jsTruthy embed then none
  else
    let ve := EmbedStep.stepFields embed (EmbedStep.stepProvider embed
      (EmbedStep.stepAuthor embed (EmbedStep.stepThumbnail embed
      (EmbedStep.stepImage embed (EmbedStep.stepFooter embed
      (EmbedStep.stepColor embed (EmbedStep.stepTimestamp host embed
      (EmbedStep.stepUrl embed (EmbedStep.stepDescription embed
      (EmbedStep.stepTitle embed [("type", .str "rich")]))))))))))
    if ve.length > 1 then some (.obj ve) else none

end V32

/-! ## Observations used in the claim statements -/

/-- Number of messages in a channel list whose `id` field SameValueZero-equals
`msgId` (the notion of "entry with that `id`"). -/
def countWithId (msgs : List JSValue) (msgId : JSValue) : Nat :=
  (msgs.filter (fun m => sameValueZero (getField m "id") msgId)).length

/-- Number of entries with the given id in channel `c` of store `pm`. -/
def entriesWithId (pm : JSValue) (c : String) (msgId : JSValue) : Nat :=
  match getField pm c with
  | .arr msgs => countWithId msgs msgId
  | _ => 0

/-- A concrete host for counterexamples and witnesses: empty user
directory, no DM resolution, a fixed clock and a working dispatcher. -/
def cexHost : Host :=
  { getUser := fun _ => none, ensureDM := fun _ => none,
    parseDate := fun _ => none, nowISO := "2024-01-01T00:00:00.000Z",
    now := 1700000000000, rand := 7, dispatchOk := true }

/-- Options of the duplicate-id scenario: explicit channel `"c"`, numeric
sender `"42"`, `persistent: true`.  With `cexHost`'s fixed clock, every
call generates the same message id. -/
def cexOpts : V103.FakeMessageOptions :=
  { channelId := .str "c", fromUserId := .str "42", persistent := .bool true }

/-- Well-formedness of one entry of a validated `fields` element: an
object whose `name` is a string of at most 256 characters and whose
`value` is a string of at most 1024. -/
def fieldEntryOk (fd : JSValue) : Bool :=
  match fd with
  | .obj fes =>
    (match objGet fes "name" with
     | some (.str s) => decide (s.length ≤ 256)
     | _ => false) &&
    (match objGet fes "value" with
     | some (.str s) => decide (s.length ≤ 1024)
     | _ => false)
  | _ => false

/-- `typeof v === 'object'` and not null/array: a plain object value. -/
def isObj : JSValue → Bool
  | .obj _ => true
  | _ => false

/-- A string value within a length ceiling. -/
def strBoundOk (v : JSValue) (n : Nat) : Bool :=
  match v with
  | .str s => decide (s.length ≤ n)
  | _ => false

/-- An object value whose optional string field `k` respects ceiling `n`. -/
def objFieldBoundOk (v : JSValue) (k : String) (n : Nat) : Bool :=
  match v with
  | .obj fs =>
    (match objGet fs k with
     | some (.str s) => decide (s.length ≤ n)
     | some _ => false
     | none => true)
  | _ => false

/-- A well-formed validated `fields` value: at most 25 well-formed field
objects. -/
def fieldsOk (v : JSValue) : Bool :=
  match v with
  | .arr l => decide (l.length ≤ 25) && l.all fieldEntryOk
  | _ => false

/-- Per-key well-formedness of a validated embed entry: only the
recognized keys occur, the string fields respect their documented maxima
(title 256, description 4096, footer text 2048, author name 256) and
`fields` is a list of at most 25 well-formed field objects. -/
def embedEntryOk (kv : String × JSValue) : Bool :=
  if kv.1 = "type" then true
  else if kv.1 = "title" then strBoundOk kv.2 256
  else if kv.1 = "description" then strBoundOk kv.2 4096
  else if kv.1 = "url" then true
  else if kv.1 = "timestamp" then true
  else if kv.1 = "color" then true
  else if kv.1 = "footer" then objFieldBoundOk kv.2 "text" 2048
  else if kv.1 = "image" then isObj kv.2
  else if kv.1 = "thumbnail" then isObj kv.2
  else if kv.1 = "author" then objFieldBoundOk kv.2 "name" 256
  else if kv.1 = "provider" then isObj kv.2
  else if kv.1 = "fields" then fieldsOk kv.2
  else false

/-- A `MESSAGE_DELETE` event as the host dispatches it. -/
def deleteEvent (i c : String) : JSValue :=
  .obj [("type", .str "MESSAGE_DELETE"), ("id", .str i), ("channelId", .str c)]

/-- A `MESSAGE_DELETE_BULK` event as the host dispatches it. -/
def bulkDeleteEvent (ids : List JSValue) (c : String) : JSValue :=
  .obj [("type", .str "MESSAGE_DELETE_BULK"), ("channelId", .str c), ("ids", .arr ids)]

/-! ## Helper lemmas about the object model -/

theorem objGet_objSet_self (es : List (String × JSValue)) (k : String) (v : JSValue) :
    objGet (objSet es k v) k = some v := by
  induction es with
  | nil => simp [objSet, objGet]
  | cons kv rest ih =>
    obtain ⟨k1, v1⟩ := kv
    by_cases h : k1 = k
    · simp [objSet, objGet, h]
    · simp [objSet, objGet, h, ih]

theorem objGet_objSet_ne (es : List (String × JSValue)) (k k' : String) (v : JSValue)
    (h : k' ≠ k) : objGet (objSet es k v) k' = objGet es k' := by
  have hk : ¬ k = k' := fun hh => h hh.symm
  induction es with
  | nil => simp [objSet, objGet, hk]
  | cons kv rest ih =>
    obtain ⟨k1, v1⟩ := kv
    by_cases h1 : k1 = k
    · subst h1
      simp [objSet, objGet, hk]
    · simp only [objSet, if_neg h1, objGet]
      by_cases h2 : k1 = k'
      · simp [h2]
      · simp [h2, ih]

theorem mem_objSet (es : List (String × JSValue)) (k : String) (v : JSValue)
    (kv : String × JSValue) (h : kv ∈ objSet es k v) : kv ∈ es ∨ kv = (k, v) := by
  induction es with
  | nil =>
    simp only [objSet, List.mem_singleton] at h
    exact Or.inr h
  | cons kv1 rest ih =>
    obtain ⟨k1, v1⟩ := kv1
    by_cases h1 : k1 = k
    · subst h1
      rw [show objSet ((k1, v1) :: rest) k1 v = (k1, v) :: rest from by simp [objSet]] at h
      cases h with
      | head => exact Or.inr rfl
      | tail _ hh => exact Or.inl (List.mem_cons_of_mem _ hh)
    · simp only [objSet, if_neg h1, List.mem_cons] at h
      cases h with
      | inl hh => exact Or.inl (hh ▸ List.mem_cons_self _ _)
      | inr hh =>
        cases ih hh with
        | inl h2 => exact Or.inl (List.mem_cons_of_mem _ h2)
        | inr h2 => exact Or.inr h2

theorem objSet_length_of_objGet_none (es : List (String × JSValue)) (k : String)
    (v : JSValue) (h : objGet es k = none) : (objSet es k v).length = es.length + 1 := by
  induction es with
  | nil => simp [objSet]
  | cons kv rest ih =>
    obtain ⟨k1, v1⟩ := kv
    by_cases h1 : k1 = k
    · simp [objGet, h1] at h
    · simp only [objGet, if_neg h1] at h
      simp [objSet, if_neg h1, ih h]

theorem length_le_objSet_length (es : List (String × JSValue)) (k : String) (v : JSValue) :
    es.length ≤ (objSet es k v).length := by
  induction es with
  | nil => simp [objSet]
  | cons kv rest ih =>
    obtain ⟨k1, v1⟩ := kv
    by_cases h1 : k1 = k
    · simp [objSet, h1]
    · simpa [objSet, if_neg h1] using ih

theorem mem_objDelete (es : List (String × JSValue)) (key : String)
    (kv : String × JSValue) (h : kv ∈ objDelete es key) : kv ∈ es := by
  induction es with
  | nil => simp [objDelete] at h
  | cons kv1 rest ih =>
    obtain ⟨k1, v1⟩ := kv1
    by_cases h1 : k1 = key
    · simp only [objDelete, if_pos h1] at h
      exact List.mem_cons_of_mem _ h
    · simp only [objDelete, if_neg h1, List.mem_cons] at h
      rcases h with h | h
      · exact h ▸ List.mem_cons_self _ _
      · exact List.mem_cons_of_mem _ (ih h)

theorem objGet_objDelete_ne (es : List (String × JSValue)) (key k' : String)
    (h : k' ≠ key) : objGet (objDelete es key) k' = objGet es k' := by
  induction es with
  | nil => simp [objDelete]
  | cons kv rest ih =>
    obtain ⟨k1, v1⟩ := kv
    by_cases h1 : k1 = key
    · subst h1
      have hne : ¬ k1 = k' := fun hh => h hh.symm
      simp [objDelete, objGet, hne]
    · simp only [objDelete, if_neg h1, objGet]
      by_cases h2 : k1 = k'
      · simp [h2]
      · simp [h2, ih]

theorem objGet_eq_none_of_key_not_mem (es : List (String × JSValue)) (key : String)
    (h : key ∉ es.map Prod.fst) : objGet es key = none := by
  induction es with
  | nil => simp [objGet]
  | cons kv rest ih =>
    obtain ⟨k1, v1⟩ := kv
    simp only [List.map_cons, List.mem_cons] at h
    push_neg at h
    simp only [objGet, if_neg (fun hh : k1 = key => h.1 hh.symm)]
    exact ih h.2

theorem objGet_objDelete_self (es : List (String × JSValue)) (key : String)
    (h : (es.map Prod.fst).Nodup) : objGet (objDelete es key) key = none := by
  induction es with
  | nil => simp [objDelete, objGet]
  | cons kv rest ih =>
    obtain ⟨k1, v1⟩ := kv
    simp only [List.map_cons, List.nodup_cons] at h
    by_cases h1 : k1 = key
    · subst h1
      simp only [objDelete, if_pos rfl]
      exact objGet_eq_none_of_key_not_mem rest k1 h.1
    · simp only [objDelete, if_neg h1, objGet, if_neg h1]
      exact ih h.2

/-! ## Helper lemmas about the JSON round-trip -/

theorem jsonRTEntries_length_le (es : List (String × JSValue)) :
    (jsonRTEntries es).length ≤ es.length := by
  induction es with
  | nil => simp [jsonRTEntries]
  | cons kv rest ih =>
    obtain ⟨k1, v1⟩ := kv
    cases v1 with
    | undef => simpa [jsonRTEntries] using Nat.le_succ_of_le ih
    | null => simpa [jsonRTEntries] using ih
    | bool b => simpa [jsonRTEntries] using ih
    | num n => simpa [jsonRTEntries] using ih
    | nan => simpa [jsonRTEntries] using ih
    | str s => simpa [jsonRTEntries] using ih
    | arr l => simpa [jsonRTEntries] using ih
    | obj l => simpa [jsonRTEntries] using ih

theorem jsonRTElems_length (es : List JSValue) :
    (jsonRTElems es).length = es.length := by
  induction es with
  | nil => simp [jsonRTElems]
  | cons v rest ih =>
    cases v with
    | undef => simpa [jsonRTElems] using ih
    | null => simpa [jsonRTElems] using ih
    | bool b => simpa [jsonRTElems] using ih
    | num n => simpa [jsonRTElems] using ih
    | nan => simpa [jsonRTElems] using ih
    | str s => simpa [jsonRTElems] using ih
    | arr l => simpa [jsonRTElems] using ih
    | obj l => simpa [jsonRTElems] using ih

theorem jsonRTEntries_cons_of_not_undef (k : String) (v : JSValue)
    (rest : List (String × JSValue)) (h : isUndef v = false) :
    jsonRTEntries ((k, v) :: rest) = (k, jsonRT v) :: jsonRTEntries rest := by
  cases v <;> simp_all [jsonRTEntries, isUndef]

theorem jsonRTEntries_eq_self_entry (es : List (String × JSValue))
    (h : jsonRTEntries es = es) :
    ∀ kv ∈ es, isUndef kv.2 = false ∧ jsonRT kv.2 = kv.2 := by
  induction es with
  | nil => intro kv hkv; simp at hkv
  | cons kv1 rest ih =>
    obtain ⟨k1, v1⟩ := kv1
    intro kv hkv
    by_cases hv : isUndef v1 = true
    · exfalso
      have hv1 : v1 = JSValue.undef := by cases v1 <;> simp_all [isUndef]
      subst hv1
      have hlen := jsonRTEntries_length_le rest
      have : jsonRTEntries ((k1, JSValue.undef) :: rest) = jsonRTEntries rest := by
        simp [jsonRTEntries]
      rw [this] at h
      have := congrArg List.length h
      simp at this
      omega
    · have hv' : isUndef v1 = false := by simpa using hv
      rw [jsonRTEntries_cons_of_not_undef _ _ _ hv'] at h
      have hpair := (List.cons.injEq _ _ _ _).mp h
      have hrt : jsonRT v1 = v1 := (Prod.mk.injEq _ _ _ _ |>.mp hpair.1).2
      have hrest : jsonRTEntries rest = rest := hpair.2
      rcases List.mem_cons.mp hkv with hh | hh
      · subst hh; exact ⟨hv', hrt⟩
      · exact ih hrest kv hh

theorem jsonRTEntries_eq_self_of_entries (es : List (String × JSValue))
    (h : ∀ kv ∈ es, isUndef kv.2 = false ∧ jsonRT kv.2 = kv.2) :
    jsonRTEntries es = es := by
  induction es with
  | nil => simp [jsonRTEntries]
  | cons kv1 rest ih =>
    obtain ⟨k1, v1⟩ := kv1
    have h1 := h (k1, v1) (List.mem_cons_self _ _)
    rw [jsonRTEntries_cons_of_not_undef _ _ _ h1.1, h1.2,
        ih (fun kv hkv => h kv (List.mem_cons_of_mem _ hkv))]

theorem jsTruthy_jsonRT (v : JSValue) : jsTruthy (jsonRT v) = jsTruthy v := by
  cases v <;> rfl

theorem objGet_jsonRTEntries (es : List (String × JSValue)) (k : String) (v : JSValue)
    (hget : objGet es k = some v) (hv : isUndef v = false) :
    objGet (jsonRTEntries es) k = some (jsonRT v) := by
  induction es with
  | nil => simp [objGet] at hget
  | cons kv1 rest ih =>
    obtain ⟨k1, v1⟩ := kv1
    by_cases h1 : k1 = k
    · subst h1
      rw [show objGet ((k1, v1) :: rest) k1 = some v1 from by simp [objGet]] at hget
      cases hget
      rw [jsonRTEntries_cons_of_not_undef _ _ _ hv]
      simp [objGet]
    · simp only [objGet, if_neg h1] at hget
      by_cases hv1 : isUndef v1 = true
      · have : v1 = JSValue.undef := by cases v1 <;> simp_all [isUndef]
        subst this
        show objGet (jsonRTEntries ((k1, JSValue.undef) :: rest)) k = _
        rw [show jsonRTEntries ((k1, JSValue.undef) :: rest) = jsonRTEntries rest from by
          simp [jsonRTEntries]]
        exact ih hget
      · have hv1' : isUndef v1 = false := by simpa using hv1
        rw [jsonRTEntries_cons_of_not_undef _ _ _ hv1']
        simp only [objGet, if_neg h1]
        exact ih hget

/-- A property read that succeeded agrees with the non-throwing read. -/
theorem getField_of_jsGet_ok (m : JSValue) (k : String) (v : JSValue)
    (h : jsGet m k = .ok v) : getField m k = v := by
  simp [getField, h]

/-! ## C2: malformed identifiers -/

/-- C2: for every call to `fakeMessage` (in both the 1.0.3 and 3.1.0
iterations) in which `fromUserId` fails `validateUserId` (i.e. is not a
string of decimal digits after trimming) — or in which no `channelId` is
supplied and `targetUserId` fails it — the call returns `false` and the
persistence store is exactly the same after the call as before it. -/
theorem c2_invalid_ids_leave_store_unchanged
    (host : Host) (opts : V103.FakeMessageOptions) (pm : JSValue) :
    (validateUserId opts.fromUserId = false →
      V103.fakeMessage host opts pm = (false, pm) ∧
      V310.fakeMessage host opts pm = (false, pm)) ∧
    (jsTruthy opts.channelId = false → validateUserId opts.targetUserId = false →
      V103.fakeMessage host opts pm = (false, pm) ∧
      V310.fakeMessage host opts pm = (false, pm)) := by
  constructor
  · intro h
    constructor <;> simp [V103.fakeMessage, V310.fakeMessage, h]
  · intro hc ht
    by_cases hf : validateUserId opts.fromUserId
    · by_cases htr : jsTruthy opts.targetUserId
      · constructor <;> simp [V103.fakeMessage, V310.fakeMessage, hf, hc, ht, htr]
      · constructor <;> simp [V103.fakeMessage, V310.fakeMessage, hf, hc, ht, htr]
    · replace hf : validateUserId opts.fromUserId = false := by simpa using hf
      constructor <;> simp [V103.fakeMessage, V310.fakeMessage, hf]

/-- Witness for C2 at the concrete call `fakeMessage({fromUserId: "12a"})`
on the empty store. -/
theorem c2_witness :
    validateUserId (.str "12a") = false ∧
    V103.fakeMessage cexHost { fromUserId := .str "12a" } (.obj []) = (false, .obj []) := by
  refine ⟨by decide, ?_⟩
  exact ((c2_invalid_ids_leave_store_unchanged cexHost
    { fromUserId := .str "12a" } (.obj [])).1 (by decide)).1

/-! ## C9: the non-persistent frame -/

/-- C9: for every call to `fakeMessage` (both iterations) in which the
`persistent` option is absent or falsy, the persistence store is unchanged
by the call, whether the call succeeds or fails — only `persistent: true`
calls ever touch it. -/
theorem c9_nonpersistent_leaves_store_unchanged
    (host : Host) (opts : V103.FakeMessageOptions) (pm : JSValue)
    (h : jsTruthy opts.persistent = false) :
    (V103.fakeMessage host opts pm).2 = pm ∧ (V310.fakeMessage host opts pm).2 = pm := by
  constructor
  · unfold V103.fakeMessage
    repeat' split
    all_goals simp_all
    all_goals repeat' split
    all_goals simp_all
  · unfold V310.fakeMessage
    repeat' split
    all_goals simp_all
    all_goals repeat' split
    all_goals simp_all

/-- Witness for C9: a successful non-persistent injection into channel
`"c"` leaves the empty store empty. -/
theorem c9_witness :
    jsTruthy (V103.FakeMessageOptions.persistent
      { channelId := .str "c", fromUserId := .str "42" }) = false ∧
    (V103.fakeMessage cexHost { channelId := .str "c", fromUserId := .str "42" }
      (.obj [])).2 = .obj [] := by
  refine ⟨by decide, ?_⟩
  exact (c9_nonpersistent_leaves_store_unchanged cexHost
    { channelId := .str "c", fromUserId := .str "42" } (.obj []) (by decide)).1

/-! ## C6: idempotence of `clearAllMessages` -/

/-- C6: `clearAllMessages` is idempotent in both iterations: a completed
call leaves the store map empty, and a second immediate call completes
without error and leaves it empty again.  (The 1.0.3 call always
completes; the 3.1.0 hypothesis is its completed first call.) -/
theorem c6_clearAllMessages_idempotent (pm : JSValue) :
    (V103.clearAllMessages pm = (.obj [], true) ∧
     V103.clearAllMessages (V103.clearAllMessages pm).1 = (.obj [], true)) ∧
    (∀ pm' t, V310.clearAllMessages pm = .ok (pm', t) →
      pm' = .obj [] ∧ V310.clearAllMessages pm' = .ok (.obj [], true)) := by
  refine ⟨⟨rfl, rfl⟩, ?_⟩
  intro pm' t h
  unfold V310.clearAllMessages at h
  cases hcount : V310.countAllMessages pm with
  | error e => rw [hcount] at h; simp [Bind.bind, Except.bind] at h
  | ok cnt =>
    rw [hcount] at h
    simp only [Bind.bind, Except.bind, pure, Except.pure, Except.ok.injEq] at h
    have hpm : pm' = .obj [] := by
      have := congrArg Prod.fst h.symm
      simpa using this
    subst hpm
    exact ⟨rfl, rfl⟩

/-- Witness for C6 on the concrete one-channel store `{c: [1]}`. -/
theorem c6_witness :
    V310.clearAllMessages (.obj [("c", .arr [.num 1])]) = .ok (.obj [], true) ∧
    V310.clearAllMessages (.obj []) = .ok (.obj [], true) := by
  refine ⟨rfl, ?_⟩
  exact ((c6_clearAllMessages_idempotent (.obj [("c", .arr [.num 1])])).2
    (.obj []) true rfl).2

/-! ## C1: deduplication of the persistent append -/

theorem objSet_objSet (es : List (String × JSValue)) (k : String) (v w : JSValue) :
    objSet (objSet es k v) k w = objSet es k w := by
  induction es with
  | nil => simp [objSet]
  | cons kv rest ih =>
    obtain ⟨k1, v1⟩ := kv
    by_cases h1 : k1 = k
    · simp [objSet, h1]
    · simp [objSet, h1, ih]

theorem mapM_jsGet_ids_any (msgs : List JSValue) (ids : List JSValue) (mid : JSValue)
    (h : msgs.mapM (fun m => jsGet m "id") = .ok ids) :
    ids.any (fun x => sameValueZero x mid) =
      msgs.any (fun m => sameValueZero (getField m "id") mid) := by
  induction msgs generalizing ids with
  | nil =>
    simp only [List.mapM_nil, pure, Except.pure, Except.ok.injEq] at h
    subst h
    simp
  | cons m rest ih =>
    rw [List.mapM_cons] at h
    cases hg : jsGet m "id" with
    | error e => rw [hg] at h; simp [Bind.bind, Except.bind] at h
    | ok v =>
      rw [hg] at h
      cases hr : rest.mapM (fun mm => jsGet mm "id") with
      | error e => rw [hr] at h; simp [Bind.bind, Except.bind] at h
      | ok vs =>
        rw [hr] at h
        simp only [Bind.bind, Except.bind, pure, Except.pure, Except.ok.injEq] at h
        subst h
        simp [List.any_cons, ih vs hr, getField_of_jsGet_ok m "id" v hg]

theorem any_id_eq_false_iff (msgs : List JSValue) (mid : JSValue) :
    msgs.any (fun m => sameValueZero (getField m "id") mid) = false ↔
      countWithId msgs mid = 0 := by
  simp [countWithId, List.length_eq_zero, List.filter_eq_nil_iff, List.any_eq_false]

theorem countWithId_append_one (msgs : List JSValue) (m mid : JSValue)
    (h : sameValueZero (getField m "id") mid = true) :
    countWithId (msgs ++ [m]) mid = countWithId msgs mid + 1 := by
  simp [countWithId, List.filter_append, h]


theorem jsGet_obj (es : List (String × JSValue)) (key : String) :
    jsGet (.obj es) key = .ok ((objGet es key).getD .undef) := rfl

/-- One 3.1.0 persistent append on an object store whose target list holds
at most one entry with the appended message's id completes with exactly
one entry with that id (the append is a no-op on a duplicate and a push
otherwise; a missing or falsy channel entry is first initialized). -/
theorem persistMessage_v310_count (es : List (String × JSValue)) (key s : String)
    (m : JSValue) (pmOut : JSValue)
    (hid : jsGet m "id" = .ok (.str s))
    (hcount : ∀ msgs, objGet es key = some (.arr msgs) → countWithId msgs (.str s) ≤ 1)
    (h : V310.persistMessage (.obj es) key m = .ok pmOut) :
    ∃ es', pmOut = .obj es' ∧
      ∃ msgs', objGet es' key = some (.arr msgs') ∧ countWithId msgs' (.str s) = 1 := by
  have hm_same : sameValueZero (getField m "id") (.str s) = true := by
    rw [getField_of_jsGet_ok _ _ _ hid]
    simp [sameValueZero, strictEq]
  have hsingle : countWithId [m] (.str s) = 1 := by
    simp [countWithId, hm_same]
  have hfresh : ∀ v : JSValue, jsTruthy v = false →
      (objGet es key = none ∨ objGet es key = some v) →
      V310.persistMessage (.obj es) key m =
        .ok (.obj (objSet (objSet es key (.arr [])) key (.arr ([] ++ [m])))) := by
    intro v hv hor
    rcases hor with hget | hget
    · simp only [V310.persistMessage, jsGet_obj, hget, Option.getD, Bind.bind, Except.bind,
        show jsTruthy JSValue.undef = false from rfl, Bool.not_false, if_true, jsSet,
        objGet_objSet_self, List.mapM, List.mapM.loop, List.reverse_nil, pure, Except.pure,
        hid, List.any_nil, Bool.false_eq_true, if_false]
    · simp only [V310.persistMessage, jsGet_obj, hget, Option.getD, Bind.bind, Except.bind,
        hv, Bool.not_false, if_true, jsSet, objGet_objSet_self, List.mapM, List.mapM.loop,
        List.reverse_nil, pure, Except.pure, hid, List.any_nil, Bool.false_eq_true, if_false]
  have hconc : pmOut = .obj (objSet (objSet es key (.arr [])) key (.arr ([] ++ [m]))) →
      ∃ es', pmOut = .obj es' ∧
        ∃ msgs', objGet es' key = some (.arr msgs') ∧ countWithId msgs' (.str s) = 1 := by
    intro hpm
    subst hpm
    refine ⟨_, rfl, [m], ?_, hsingle⟩
    simpa using objGet_objSet_self (objSet es key (.arr [])) key (.arr [m])
  cases hget : objGet es key with
  | none =>
    rw [hfresh .undef rfl (Or.inl hget)] at h
    exact hconc (by cases h; rfl)
  | some v =>
    cases htru : jsTruthy v with
    | false =>
      rw [hfresh v htru (Or.inr hget)] at h
      exact hconc (by cases h; rfl)
    | true =>
      cases v with
      | arr msgs =>
        have hle := hcount msgs hget
        cases hmap : msgs.mapM (fun mm => jsGet mm "id") with
        | error e =>
          exfalso
          have herr : V310.persistMessage (.obj es) key m = .error e := by
            simp only [V310.persistMessage, jsGet_obj, hget, Option.getD, Bind.bind,
              Except.bind, jsTruthy, Bool.not_true, Bool.false_eq_true, if_false,
              pure, Except.pure, hmap]
          rw [herr] at h
          cases h
        | ok ids =>
          have hany := mapM_jsGet_ids_any msgs ids (.str s) hmap
          cases hza : ids.any (fun x => sameValueZero x (.str s)) with
          | true =>
            have hpm : V310.persistMessage (.obj es) key m = .ok (.obj es) := by
              simp only [V310.persistMessage, jsGet_obj, hget, Option.getD, Bind.bind,
                Except.bind, jsTruthy, Bool.not_true, Bool.false_eq_true, if_false,
                pure, Except.pure, hmap, hid, hza, if_true]
            rw [hpm] at h
            cases h
            refine ⟨es, rfl, msgs, hget, ?_⟩
            have hpos : msgs.any (fun mm => sameValueZero (getField mm "id") (.str s)) = true := by
              rw [← hany]; exact hza
            rcases List.any_eq_true.mp hpos with ⟨mm, hmm, hsv⟩
            have hgt : 0 < countWithId msgs (.str s) := by
              simp only [countWithId, List.length_pos]
              intro hnil
              have := List.filter_eq_nil_iff.mp hnil mm hmm
              simp [hsv] at this
            omega
          | false =>
            have hpm : V310.persistMessage (.obj es) key m =
                .ok (.obj (objSet es key (.arr (msgs ++ [m])))) := by
              simp only [V310.persistMessage, jsGet_obj, hget, Option.getD, Bind.bind,
                Except.bind, jsTruthy, Bool.not_true, Bool.false_eq_true, if_false,
                pure, Except.pure, hmap, hid, hza, jsSet]
            rw [hpm] at h
            cases h
            refine ⟨_, rfl, msgs ++ [m], objGet_objSet_self _ _ _, ?_⟩
            have hz : countWithId msgs (.str s) = 0 :=
              (any_id_eq_false_iff msgs (.str s)).mp (by rw [← hany]; exact hza)
            rw [countWithId_append_one msgs m (.str s) hm_same, hz]
      | undef => simp [jsTruthy] at htru
      | null => simp [jsTruthy] at htru
      | bool b =>
        exfalso
        have herr : V310.persistMessage (.obj es) key m =
            .error "TypeError: map is not a function" := by
          simp only [V310.persistMessage, jsGet_obj, hget, Option.getD, Bind.bind,
            Except.bind, htru, Bool.not_true, Bool.false_eq_true, if_false,
            pure, Except.pure]
        rw [herr] at h
        cases h
      | num n =>
        exfalso
        have herr : V310.persistMessage (.obj es) key m =
            .error "TypeError: map is not a function" := by
          simp only [V310.persistMessage, jsGet_obj, hget, Option.getD, Bind.bind,
            Except.bind, htru, Bool.not_true, Bool.false_eq_true, if_false,
            pure, Except.pure]
        rw [herr] at h
        cases h
      | nan => simp [jsTruthy] at htru
      | str t =>
        exfalso
        have herr : V310.persistMessage (.obj es) key m =
            .error "TypeError: map is not a function" := by
          simp only [V310.persistMessage, jsGet_obj, hget, Option.getD, Bind.bind,
            Except.bind, htru, Bool.not_true, Bool.false_eq_true, if_false,
            pure, Except.pure]
        rw [herr] at h
        cases h
      | obj o =>
        exfalso
        have herr : V310.persistMessage (.obj es) key m =
            .error "TypeError: map is not a function" := by
          simp only [V310.persistMessage, jsGet_obj, hget, Option.getD, Bind.bind,
            Except.bind, htru, Bool.not_true, Bool.false_eq_true, if_false,
            pure, Except.pure]
        rw [herr] at h
        cases h

/-- C1 counterexample: in the cited 1.0.3 iteration the `persistent: true`
path of `fakeMessage` (`index.ts` lines 495–503) appends unconditionally.
Two calls through `cexHost` fabricate the same id
`"17000000000000007"` (same `Date.now()` and random draw), and after
appending both, channel `"c"`'s list holds **two** entries with that id,
not one. -/
theorem c1_counterexample :
    generateMessageId cexHost = "17000000000000007" ∧
    (V103.fakeMessage cexHost cexOpts (.obj [])).1 = true ∧
    entriesWithId (V103.fakeMessage cexHost cexOpts
      (V103.fakeMessage cexHost cexOpts (.obj [])).2).2 "c" (.str "17000000000000007") = 2 :=
  ⟨rfl, rfl, rfl⟩

/-- C1 (amended): in the 3.1.0 iteration (`part_000` lines 753–764) the
`persistent: true` path of `fakeMessage` deduplicates by id: for every
channel and every two messages with the same `id`, appending both to a
store whose channel list held at most one entry with that id beforehand
(always true for lists built by this append) leaves exactly one entry
with that id in that channel's list.  The 1.0.3 iteration appends
unconditionally (see the counterexample). -/
theorem c1_dedup_append_v310 (es : List (String × JSValue)) (key s : String)
    (m1 m2 : JSValue) (pm1 pm2 : JSValue)
    (hm1 : jsGet m1 "id" = .ok (.str s)) (hm2 : jsGet m2 "id" = .ok (.str s))
    (hcount : ∀ msgs, objGet es key = some (.arr msgs) → countWithId msgs (.str s) ≤ 1)
    (h1 : V310.persistMessage (.obj es) key m1 = .ok pm1)
    (h2 : V310.persistMessage pm1 key m2 = .ok pm2) :
    entriesWithId pm2 key (.str s) = 1 := by
  obtain ⟨es1, rfl, msgs1, hg1, hc1⟩ :=
    persistMessage_v310_count es key s m1 pm1 hm1 hcount h1
  have hcount1 : ∀ msgs, objGet es1 key = some (.arr msgs) →
      countWithId msgs (.str s) ≤ 1 := by
    intro msgs hg
    rw [hg1] at hg
    simp only [Option.some.injEq, JSValue.arr.injEq] at hg
    subst hg
    omega
  obtain ⟨es2, rfl, msgs2, hg2, hc2⟩ :=
    persistMessage_v310_count es1 key s m2 pm2 hm2 hcount1 h2
  simp [entriesWithId, getField, jsGet, hg2, hc2]

/-- Witness for C1's amended theorem: appending the same one-field message
twice to the empty store leaves one entry. -/
theorem c1_witness :
    V310.persistMessage (.obj []) "c" (.obj [("id", .str "X")]) =
      .ok (.obj [("c", .arr [.obj [("id", .str "X")]])]) ∧
    V310.persistMessage (.obj [("c", .arr [.obj [("id", .str "X")]])]) "c"
        (.obj [("id", .str "X")]) =
      .ok (.obj [("c", .arr [.obj [("id", .str "X")]])]) ∧
    entriesWithId (.obj [("c", .arr [.obj [("id", .str "X")]])]) "c" (.str "X") = 1 := by
  refine ⟨rfl, rfl, ?_⟩
  exact c1_dedup_append_v310 [] "c" "X" (.obj [("id", .str "X")]) (.obj [("id", .str "X")])
    (.obj [("c", .arr [.obj [("id", .str "X")]])]) (.obj [("c", .arr [.obj [("id", .str "X")]])])
    rfl rfl (fun msgs hg => by simp [objGet] at hg) rfl rfl

/-! ## C3: exception propagation at the public API boundary -/

theorem objGet_mem (es : List (String × JSValue)) (key : String) (v : JSValue)
    (h : objGet es key = some v) : (key, v) ∈ es := by
  induction es with
  | nil => simp [objGet] at h
  | cons kv rest ih =>
    obtain ⟨k1, v1⟩ := kv
    by_cases h1 : k1 = key
    · subst h1
      rw [show objGet ((k1, v1) :: rest) k1 = some v1 from by simp [objGet]] at h
      cases h
      exact List.mem_cons_self _ _
    · simp only [objGet, if_neg h1] at h
      exact List.mem_cons_of_mem _ (ih h)

theorem countAllMessages_fold_ok (vals : List JSValue)
    (h : ∀ v ∈ vals, isArr v = true) (acc : JSValue) :
    (vals.foldlM (fun acc msgs => do
      let len ← jsGet msgs "length"
      pure (jsAdd acc len)) acc :
      Except String JSValue).isOk = true := by
  induction vals generalizing acc with
  | nil => rfl
  | cons v rest ih =>
    have hv := h v (List.mem_cons_self _ _)
    cases v with
    | arr l =>
      rw [List.foldlM_cons]
      simp only [jsGet, if_pos rfl, Bind.bind, Except.bind, pure, Except.pure]
      exact ih (fun w hw => h w (List.mem_cons_of_mem _ hw)) _
    | undef => simp [isArr] at hv
    | null => simp [isArr] at hv
    | bool b => simp [isArr] at hv
    | num n => simp [isArr] at hv
    | nan => simp [isArr] at hv
    | str t => simp [isArr] at hv
    | obj o => simp [isArr] at hv

theorem countAllMessages_ok (es : List (String × JSValue))
    (harr : ∀ kv ∈ es, isArr kv.2 = true) :
    (V310.countAllMessages (.obj es)).isOk = true := by
  have heq : V310.countAllMessages (.obj es) =
      (es.map Prod.snd).foldlM (fun acc msgs => do
        let len ← jsGet msgs "length"
        pure (jsAdd acc len)) (JSValue.num 0) := rfl
  rw [heq]
  exact countAllMessages_fold_ok (es.map Prod.snd)
    (fun v hv => by
      rcases List.mem_map.mp hv with ⟨kv, hkv, rfl⟩
      exact harr kv hkv) (JSValue.num 0)

/-- C3 counterexample: the claim quantifies over *every* state of
`storage.persistentMessages`, but the 3.1.0 `clearAllMessages`
(`part_000` lines 975–993) computes `msgs.length` over every channel
value with no `try`/`catch`, so a store in which a channel maps to
`null` makes the call propagate a `TypeError` to the caller. -/
theorem c3_counterexample :
    (V310.clearAllMessages (.obj [("c", JSValue.null)])).isOk = false := rfl

/-- C3 (amended): on every store state in which `storage.persistentMessages`
is an object whose every channel entry is an array (the invariant
`recoverStorage` and `savePersistentMessages` establish), every public
operation returns normally: both `clearChannelMessages` variants and the
3.1.0 `clearAllMessages` return `.ok`, the 1.0.3 `clearAllMessages`
returns its value pair, `getAllMessages` returns the store, `quickTest`
delegates to `fakeMessage`, and `fakeMessage` — whose whole body sits in
one `try`/`catch` — is a total function of the model returning a boolean
and a store for *every* store value, not just invariant ones. -/
theorem c3_no_uncaught_exception (host : Host) (opts : V103.FakeMessageOptions)
    (tgt frm : JSValue) (es : List (String × JSValue)) (c : String)
    (harr : ∀ kv ∈ es, isArr kv.2 = true) :
    (V103.clearChannelMessages (.obj es) c).isOk = true ∧
    (V310.clearChannelMessages (.obj es) c).isOk = true ∧
    (V310.clearAllMessages (.obj es)).isOk = true ∧
    V103.clearAllMessages (.obj es) = (.obj [], true) ∧
    V103.getAllMessages (.obj es) = .obj es ∧
    V103.quickTest host tgt frm (.obj es) =
      V103.fakeMessage host
        { targetUserId := tgt, fromUserId := frm,
          content := .str "Test message from Message Injector plugin! 🎉",
          persistent := .bool true } (.obj es) ∧
    (∀ pm0 : JSValue, ∃ b pmOut, V103.fakeMessage host opts pm0 = (b, pmOut)) := by
  refine ⟨?_, ?_, ?_, rfl, rfl, rfl, fun pm0 => ⟨_, _, rfl⟩⟩
  · unfold V103.clearChannelMessages
    simp only [jsGet_obj, Bind.bind, Except.bind]
    split <;> rfl
  · unfold V310.clearChannelMessages
    simp only [jsGet_obj, Bind.bind, Except.bind]
    split
    case isTrue htru =>
      cases hov : objGet es c with
      | none => rw [hov] at htru; simp [jsTruthy] at htru
      | some v =>
        have hv := harr (c, v) (objGet_mem es c v hov)
        cases v with
        | arr l =>
          simp only [Option.getD, jsGet, if_pos rfl, Bind.bind, Except.bind,
            pure, Except.pure]
          rfl
        | undef => simp [isArr] at hv
        | null => simp [isArr] at hv
        | bool b => simp [isArr] at hv
        | num n => simp [isArr] at hv
        | nan => simp [isArr] at hv
        | str t => simp [isArr] at hv
        | obj o => simp [isArr] at hv
    case isFalse => rfl
  · cases hcm : V310.countAllMessages (.obj es) with
    | error e =>
      exfalso
      have hok := countAllMessages_ok es harr
      rw [hcm] at hok
      simp [Except.isOk, Except.toBool] at hok
    | ok v =>
      have heq : V310.clearAllMessages (.obj es) =
          .ok (V103.savePersistentMessages (.obj []), true) := by
        unfold V310.clearAllMessages
        rw [hcm]
        rfl
      rw [heq]
      rfl

/-- Witness for C3's amended theorem at the one-channel store `{c: []}`. -/
theorem c3_witness :
    (V103.clearChannelMessages (.obj [("c", JSValue.arr [])]) "c").isOk = true ∧
    (V310.clearAllMessages (.obj [("c", JSValue.arr [])])).isOk = true :=
  ⟨(c3_no_uncaught_exception cexHost {} JSValue.undef JSValue.undef
      [("c", JSValue.arr [])] "c" (by simp [isArr])).1,
   (c3_no_uncaught_exception cexHost {} JSValue.undef JSValue.undef
      [("c", JSValue.arr [])] "c" (by simp [isArr])).2.2.1⟩

/-! ## C4: the recovery invariant -/

theorem mem_jsonRTEntries (l : List (String × JSValue)) (kv : String × JSValue)
    (h : kv ∈ jsonRTEntries l) :
    ∃ kv0 ∈ l, isUndef kv0.2 = false ∧ kv = (kv0.1, jsonRT kv0.2) := by
  induction l with
  | nil => simp [jsonRTEntries] at h
  | cons kv1 rest ih =>
    obtain ⟨k1, v1⟩ := kv1
    by_cases hv1 : isUndef v1 = true
    · have : v1 = JSValue.undef := by cases v1 <;> simp_all [isUndef]
      subst this
      rw [show jsonRTEntries ((k1, JSValue.undef) :: rest) = jsonRTEntries rest from by
        simp [jsonRTEntries]] at h
      rcases ih h with ⟨kv0, hm, hu, hkv⟩
      exact ⟨kv0, List.mem_cons_of_mem _ hm, hu, hkv⟩
    · have hv1' : isUndef v1 = false := by simpa using hv1
      rw [jsonRTEntries_cons_of_not_undef _ _ _ hv1'] at h
      rcases List.mem_cons.mp h with hh | hh
      · exact ⟨(k1, v1), List.mem_cons_self _ _, hv1', hh⟩
      · rcases ih hh with ⟨kv0, hm, hu, hkv⟩
        exact ⟨kv0, List.mem_cons_of_mem _ hm, hu, hkv⟩

theorem mem_jsonRTElems (l : List JSValue) (m : JSValue) (h : m ∈ jsonRTElems l) :
    ∃ m0 ∈ l, (isUndef m0 = false ∧ m = jsonRT m0) ∨ (isUndef m0 = true ∧ m = .null) := by
  induction l with
  | nil => simp [jsonRTElems] at h
  | cons v rest ih =>
    by_cases hv : isUndef v = true
    · have : v = JSValue.undef := by cases v <;> simp_all [isUndef]
      subst this
      rw [show jsonRTElems (JSValue.undef :: rest) = JSValue.null :: jsonRTElems rest from by
        simp [jsonRTElems]] at h
      rcases List.mem_cons.mp h with hh | hh
      · exact ⟨JSValue.undef, List.mem_cons_self _ _, Or.inr ⟨rfl, hh⟩⟩
      · rcases ih hh with ⟨m0, hm, hd⟩
        exact ⟨m0, List.mem_cons_of_mem _ hm, hd⟩
    · have hrw : jsonRTElems (v :: rest) = jsonRT v :: jsonRTElems rest := by
        cases v <;> simp_all [jsonRTElems, isUndef]
      rw [hrw] at h
      rcases List.mem_cons.mp h with hh | hh
      · exact ⟨v, List.mem_cons_self _ _, Or.inl ⟨by simpa using hv, hh⟩⟩
      · rcases ih hh with ⟨m0, hm, hd⟩
        exact ⟨m0, List.mem_cons_of_mem _ hm, hd⟩

/-- The required-field predicate forces a message to be an object. -/
theorem msgRequiredOk_obj (m : JSValue) (h : V103.msgRequiredOk m = true) :
    ∃ fields, m = .obj fields := by
  have hid : parseIndex "id" = none := rfl
  cases m with
  | obj fields => exact ⟨fields, rfl⟩
  | undef => simp [V103.msgRequiredOk, jsTruthy] at h
  | null => simp [V103.msgRequiredOk, jsTruthy] at h
  | nan => simp [V103.msgRequiredOk, jsTruthy] at h
  | bool b => simp [V103.msgRequiredOk, getField, jsGet, jsTruthy] at h
  | num n => simp [V103.msgRequiredOk, getField, jsGet, jsTruthy] at h
  | str t => simp [V103.msgRequiredOk, getField, jsGet, jsTruthy, hid] at h
  | arr l => simp [V103.msgRequiredOk, getField, jsGet, jsTruthy, hid] at h

/-- The JSON round-trip preserves the required-field predicate. -/
theorem msgRequiredOk_jsonRT (m : JSValue) (h : V103.msgRequiredOk m = true) :
    V103.msgRequiredOk (jsonRT m) = true := by
  obtain ⟨fields, rfl⟩ := msgRequiredOk_obj m h
  have key_ok : ∀ k, jsTruthy (getField (.obj fields) k) = true →
      jsTruthy (getField (.obj (jsonRTEntries fields)) k) = true := by
    intro k hk
    cases hg : objGet fields k with
    | none => simp [getField, jsGet, hg, jsTruthy] at hk
    | some v =>
      have hv : jsTruthy v = true := by simpa [getField, jsGet, hg] using hk
      have hvu : isUndef v = false := by cases v <;> simp_all [isUndef, jsTruthy]
      simp [getField, jsGet, objGet_jsonRTEntries fields k v hg hvu,
        jsTruthy_jsonRT, hv]
  simp only [V103.msgRequiredOk, Bool.and_eq_true] at h ⊢
  refine ⟨⟨⟨⟨rfl, ?_⟩, ?_⟩, ?_⟩, ?_⟩
  · exact key_ok "id" h.1.1.1.2
  · exact key_ok "channel_id" h.1.1.2
  · exact key_ok "author" h.1.2
  · exact key_ok "timestamp" h.2

/-- What a recovered channel entry looks like. -/
theorem recoverChannelEntry_spec (v w : JSValue)
    (h : V103.recoverChannelEntry v = some w) :
    ∃ msgs, v = .arr msgs ∧ w = .arr (msgs.filter V103.msgRequiredOk) ∧
      msgs.filter V103.msgRequiredOk ≠ [] := by
  cases v with
  | arr msgs =>
    simp only [V103.recoverChannelEntry] at h
    split at h
    · cases h
    · cases h
      refine ⟨msgs, rfl, rfl, ?_⟩
      intro hnil
      simp_all
  | undef => simp [V103.recoverChannelEntry] at h
  | null => simp [V103.recoverChannelEntry] at h
  | bool b => simp [V103.recoverChannelEntry] at h
  | num n => simp [V103.recoverChannelEntry] at h
  | nan => simp [V103.recoverChannelEntry] at h
  | str t => simp [V103.recoverChannelEntry] at h
  | obj o => simp [V103.recoverChannelEntry] at h

/-- C4 counterexample: an array-valued store passes `recoverStorage`'s
`typeof === 'object'` guard.  For the store `[5]` the recovery pass
deletes the non-array element, leaving a hole that the saving JSON
round-trip turns into `null`: afterwards the channel key `"0"` remains
and maps to `null` — not to a non-empty array of well-formed messages. -/
theorem c4_counterexample :
    V103.recoverStorage (.arr [.num 5]) = .arr [.null] ∧
    jsKeys (.arr [.null]) = ["0"] ∧
    getField (.arr [.null]) "0" = .null ∧
    isArr JSValue.null = false :=
  ⟨rfl, rfl, rfl, rfl⟩

/-- C4 (amended): for every store that is not itself an array, after
`recoverStorage` runs the store is an object in which every remaining
channel key maps to a non-empty array whose every message passes the
required-field check (`id`, `channel_id`, `author`, `timestamp` all
truthy); in particular a stored entry missing `timestamp` is removed, and
a channel whose list becomes empty is removed entirely.  (An array-valued
store slips past the `typeof` guard and can retain `null` entries — see
the counterexample.) -/
theorem c4_recoverStorage_invariant (pm : JSValue) (hna : isArr pm = false) :
    ∃ es, V103.recoverStorage pm = .obj es ∧
      ∀ kv ∈ es, ∃ msgs, kv.2 = .arr msgs ∧ msgs ≠ [] ∧
        ∀ m ∈ msgs, V103.msgRequiredOk m = true := by
  cases pm with
  | arr l => simp [isArr] at hna
  | undef => exact ⟨[], rfl, by simp⟩
  | null => exact ⟨[], rfl, by simp⟩
  | bool b => exact ⟨[], rfl, by simp⟩
  | num n => exact ⟨[], rfl, by simp⟩
  | nan => exact ⟨[], rfl, by simp⟩
  | str t => exact ⟨[], rfl, by simp⟩
  | obj es0 =>
    have hrec : V103.recoverStorage (.obj es0) =
        V103.savePersistentMessages (.obj (es0.filterMap (fun kv =>
          (V103.recoverChannelEntry kv.2).map (fun v => (kv.1, v))))) := rfl
    set filtered := es0.filterMap (fun kv =>
      (V103.recoverChannelEntry kv.2).map (fun v => (kv.1, v))) with hfiltered
    have hfen : ∀ kv ∈ filtered, ∃ msgs : List JSValue,
        kv.2 = .arr (msgs.filter V103.msgRequiredOk) ∧
        msgs.filter V103.msgRequiredOk ≠ [] := by
      intro kv hkv
      rcases List.mem_filterMap.mp hkv with ⟨kv0, hkv0, hmap⟩
      rcases Option.map_eq_some'.mp hmap with ⟨w, hw, hkveq⟩
      rcases recoverChannelEntry_spec kv0.2 w hw with ⟨msgs, hv, hwv, hne⟩
      exact ⟨msgs, by rw [← hkveq]; exact hwv, hne⟩
    have harrf : ∀ kv ∈ filtered, isArr kv.2 = true := by
      intro kv hkv
      rcases hfen kv hkv with ⟨msgs, hv, _⟩
      rw [hv]
      rfl
    have hsave : V103.savePersistentMessages (.obj filtered) =
        .obj (jsonRTEntries filtered) := by
      simp only [V103.savePersistentMessages]
      rw [List.filter_eq_self.mpr (fun kv hkv => harrf kv hkv)]
      rfl
    refine ⟨jsonRTEntries filtered, by rw [hrec]; exact hsave, ?_⟩
    intro kv hkv
    rcases mem_jsonRTEntries filtered kv hkv with ⟨kv0, hm0, hu0, hkveq⟩
    rcases hfen kv0 hm0 with ⟨msgs, hv0, hne0⟩
    set kept := msgs.filter V103.msgRequiredOk with hkept
    have hkv2 : kv.2 = .arr (jsonRTElems kept) := by
      rw [hkveq]
      simp only [hv0, jsonRT]
    refine ⟨jsonRTElems kept, hkv2, ?_, ?_⟩
    · intro hnil
      have := congrArg List.length hnil
      rw [jsonRTElems_length] at this
      exact hne0 (List.length_eq_zero.mp (by simpa using this))
    · intro m hm
      rcases mem_jsonRTElems kept m hm with ⟨m0, hm0', hd⟩
      have hok0 : V103.msgRequiredOk m0 = true := List.of_mem_filter hm0'
      rcases hd with ⟨_, rfl⟩ | ⟨hu, _⟩
      · exact msgRequiredOk_jsonRT m0 hok0
      · exfalso
        have : m0 = JSValue.undef := by cases m0 <;> simp_all [isUndef]
        subst this
        simp [V103.msgRequiredOk, jsTruthy] at hok0

/-- Witness for C4's amended theorem at a concrete corrupted store: one
channel with a valid message and one missing `timestamp`, and one channel
with only the invalid message. -/
theorem c4_witness :
    isArr (JSValue.obj
      [("c", .arr [.obj [("id", .str "1"), ("channel_id", .str "c"),
                         ("author", .obj [("id", .str "42")]), ("timestamp", .str "t")],
                   .obj [("id", .str "2"), ("channel_id", .str "c"),
                         ("author", .obj [("id", .str "42")])]]),
       ("d", .arr [.obj [("id", .str "2"), ("channel_id", .str "d"),
                         ("author", .obj [("id", .str "42")])]])]) = false ∧
    V103.recoverStorage (JSValue.obj
      [("c", .arr [.obj [("id", .str "1"), ("channel_id", .str "c"),
                         ("author", .obj [("id", .str "42")]), ("timestamp", .str "t")],
                   .obj [("id", .str "2"), ("channel_id", .str "c"),
                         ("author", .obj [("id", .str "42")])]]),
       ("d", .arr [.obj [("id", .str "2"), ("channel_id", .str "d"),
                         ("author", .obj [("id", .str "42")])]])]) =
      .obj [("c", .arr [.obj [("id", .str "1"), ("channel_id", .str "c"),
                              ("author", .obj [("id", .str "42")]),
                              ("timestamp", .str "t")]])] ∧
    (∃ es, V103.recoverStorage (JSValue.obj
      [("c", .arr [.obj [("id", .str "1"), ("channel_id", .str "c"),
                         ("author", .obj [("id", .str "42")]), ("timestamp", .str "t")],
                   .obj [("id", .str "2"), ("channel_id", .str "c"),
                         ("author", .obj [("id", .str "42")])]]),
       ("d", .arr [.obj [("id", .str "2"), ("channel_id", .str "d"),
                         ("author", .obj [("id", .str "42")])]])]) = .obj es ∧
      ∀ kv ∈ es, ∃ msgs, kv.2 = .arr msgs ∧ msgs ≠ [] ∧
        ∀ m ∈ msgs, V103.msgRequiredOk m = true) :=
  ⟨rfl, rfl, c4_recoverStorage_invariant _ rfl⟩

/-! ## C10: the `clearChannelMessages` frame -/

/-- C10: with the store an object map (unique keys, all entries arrays,
JSON-stable — the representation every persisted store has),
`clearChannelMessages(c)` modifies at most channel `c`: when `c` has no
entry the call is a complete no-op (store unchanged, no save, no toast —
the returned flag is `false`), and when it has one, exactly that key is
deleted (`objDelete`), every other channel's list unchanged.  Both the
1.0.3 and 3.1.0 variants are covered. -/
theorem c10_clearChannelMessages_frame (es : List (String × JSValue)) (c : String)
    (harr : ∀ kv ∈ es, isArr kv.2 = true)
    (hrt : jsonRTEntries es = es)
    (hnodup : (es.map Prod.fst).Nodup) :
    (objGet es c = none →
      V103.clearChannelMessages (.obj es) c = .ok (.obj es, false) ∧
      V310.clearChannelMessages (.obj es) c = .ok (.obj es, false)) ∧
    (∀ v, objGet es c = some v →
      V103.clearChannelMessages (.obj es) c = .ok (.obj (objDelete es c), true) ∧
      V310.clearChannelMessages (.obj es) c = .ok (.obj (objDelete es c), true) ∧
      objGet (objDelete es c) c = none ∧
      (∀ c', c' ≠ c → objGet (objDelete es c) c' = objGet es c')) := by
  have hdel_entries : ∀ kv ∈ objDelete es c, isUndef kv.2 = false ∧ jsonRT kv.2 = kv.2 :=
    fun kv hkv => jsonRTEntries_eq_self_entry es hrt kv (mem_objDelete es c kv hkv)
  have hsave : V103.savePersistentMessages (.obj (objDelete es c)) =
      .obj (objDelete es c) := by
    simp only [V103.savePersistentMessages]
    rw [List.filter_eq_self.mpr (fun kv hkv => harr kv (mem_objDelete es c kv hkv))]
    show JSValue.obj (jsonRTEntries (objDelete es c)) = _
    rw [jsonRTEntries_eq_self_of_entries _ hdel_entries]
  constructor
  · intro hnone
    constructor
    · unfold V103.clearChannelMessages
      simp [jsGet_obj, hnone, Bind.bind, Except.bind, jsTruthy, pure, Except.pure]
    · unfold V310.clearChannelMessages
      simp [jsGet_obj, hnone, Bind.bind, Except.bind, jsTruthy, pure, Except.pure]
  · intro v hsome
    have hv : isArr v = true := harr (c, v) (objGet_mem es c v hsome)
    obtain ⟨l, rfl⟩ : ∃ l, v = .arr l := by
      cases v <;> simp_all [isArr]
    refine ⟨?_, ?_, objGet_objDelete_self es c hnodup, fun c' hc' => objGet_objDelete_ne es c c' hc'⟩
    · unfold V103.clearChannelMessages
      simp only [jsGet_obj, hsome, Option.getD, Bind.bind, Except.bind, jsTruthy,
        if_true, jsDelete, pure, Except.pure]
      rw [hsave]
    · unfold V310.clearChannelMessages
      simp only [jsGet_obj, hsome, Option.getD, Bind.bind, Except.bind, jsTruthy,
        jsGet, if_pos rfl, if_true, jsDelete, pure, Except.pure]
      rw [hsave]

/-- Witness for C10 on the concrete two-channel store `{a: [], b: [1]}`,
clearing channel `"a"` and looking up the missing channel `"z"`. -/
theorem c10_witness :
    V103.clearChannelMessages (.obj [("a", .arr []), ("b", .arr [.num 1])]) "z" =
      .ok (.obj [("a", .arr []), ("b", .arr [.num 1])], false) ∧
    V103.clearChannelMessages (.obj [("a", .arr []), ("b", .arr [.num 1])]) "a" =
      .ok (.obj [("b", .arr [.num 1])], true) := by
  constructor
  · exact ((c10_clearChannelMessages_frame [("a", .arr []), ("b", .arr [.num 1])] "z"
      (by simp [isArr]) rfl (by simp)).1 rfl).1
  · exact ((c10_clearChannelMessages_frame [("a", .arr []), ("b", .arr [.num 1])] "a"
      (by simp [isArr]) rfl (by simp)).2 (.arr []) rfl).1

theorem c5_deletion_interception (pmEntries : List (String × JSValue)) (c : String)
    (msgs : List JSValue) (i : String) (startup : Bool)
    (hc : c ≠ "")
    (hmem : objGet pmEntries c = some (.arr msgs)) :
    (∀ fake, findById msgs (.str i) = .ok (some fake) →
      interceptDispatch ⟨true, true, .obj pmEntries⟩ startup (deleteEvent i c) =
        .ok (noopEvent, [SchedAction.injectLater fake])) ∧
    (findById msgs (.str i) = .ok none →
      interceptDispatch ⟨true, true, .obj pmEntries⟩ startup (deleteEvent i c) =
        .ok (deleteEvent i c, [])) ∧
    (∀ ids, someIncluded msgs (.arr ids) = .ok true →
      interceptDispatch ⟨true, true, .obj pmEntries⟩ startup (bulkDeleteEvent ids c) =
        .ok (noopEvent, [SchedAction.reinjectChannel c true])) ∧
    (∀ ids, someIncluded msgs (.arr ids) = .ok false →
      interceptDispatch ⟨true, true, .obj pmEntries⟩ startup (bulkDeleteEvent ids c) =
        .ok (bulkDeleteEvent ids c, [])) := by
  refine ⟨?_, ?_, ?_, ?_⟩
  · intro fake hfind
    simp [interceptDispatch, deleteEvent, getField, jsGet, objGet, strictEq, jsTruthy,
      jsToString, noopEvent, Bind.bind, Except.bind, pure, Except.pure, hmem, hfind, hc,
      jsOr, sameValueZero]
  · intro hfind
    simp [interceptDispatch, deleteEvent, getField, jsGet, objGet, strictEq, jsTruthy,
      jsToString, noopEvent, Bind.bind, Except.bind, pure, Except.pure, hmem, hfind, hc,
      jsOr, sameValueZero]
  · intro ids hsome
    simp [interceptDispatch, bulkDeleteEvent, getField, jsGet, objGet, strictEq, jsTruthy,
      jsToString, noopEvent, Bind.bind, Except.bind, pure, Except.pure, hmem, hsome, hc,
      jsOr, sameValueZero]
  · intro ids hsome
    simp [interceptDispatch, bulkDeleteEvent, getField, jsGet, objGet, strictEq, jsTruthy,
      jsToString, noopEvent, Bind.bind, Except.bind, pure, Except.pure, hmem, hsome, hc,
      jsOr, sameValueZero]

/-- Witness for C5 on a one-message store: the matching deletion is
suppressed, the non-matching one passes through. -/
theorem c5_witness :
    interceptDispatch ⟨true, true, .obj [("c", .arr [.obj [("id", .str "9")]])]⟩ false
      (deleteEvent "9" "c") =
      .ok (noopEvent, [SchedAction.injectLater (.obj [("id", .str "9")])]) ∧
    interceptDispatch ⟨true, true, .obj [("c", .arr [.obj [("id", .str "9")]])]⟩ false
      (deleteEvent "7" "c") = .ok (deleteEvent "7" "c", []) := by
  constructor
  · exact (c5_deletion_interception [("c", .arr [.obj [("id", .str "9")]])] "c"
      [.obj [("id", .str "9")]] "9" false (by decide) rfl).1 (.obj [("id", .str "9")]) rfl
  · exact (c5_deletion_interception [("c", .arr [.obj [("id", .str "9")]])] "c"
      [.obj [("id", .str "9")]] "7" false (by decide) rfl).2.1 rfl

/-! ## C7: embed validation never fails -/

theorem strTake_length_le (s : String) (n : Nat) : (strTake s n).length ≤ n := by
  show (s.toList.take n).length ≤ n
  simp [List.length_take_le]

theorem mem_ite_objSet {c : Prop} [Decidable c] (es : List (String × JSValue))
    (k : String) (v : JSValue) (kv : String × JSValue)
    (h : kv ∈ (if c then objSet es k v else es)) : kv ∈ es ∨ kv = (k, v) := by
  split at h
  · exact mem_objSet es k v kv h
  · exact Or.inl h

theorem objGet_ite_objSet_ne {c : Prop} [Decidable c] (es : List (String × JSValue))
    (k : String) (v : JSValue) (k' : String) (h : k' ≠ k) :
    objGet (if c then objSet es k v else es) k' = objGet es k' := by
  split
  · exact objGet_objSet_ne es k k' v h
  · rfl

theorem length_le_ite_objSet {c : Prop} [Decidable c] (es : List (String × JSValue))
    (k : String) (v : JSValue) :
    es.length ≤ (if c then objSet es k v else es).length := by
  split
  · exact length_le_objSet_length es k v
  · exact Nat.le_refl _

theorem embedEntryOk_footer (v : JSValue) :
    embedEntryOk ("footer", v) = objFieldBoundOk v "text" 2048 := by
  simp [embedEntryOk]

theorem embedEntryOk_author (v : JSValue) :
    embedEntryOk ("author", v) = objFieldBoundOk v "name" 256 := by
  simp [embedEntryOk]

theorem embedEntryOk_image (v : JSValue) : embedEntryOk ("image", v) = isObj v := by
  simp [embedEntryOk]

theorem embedEntryOk_thumbnail (v : JSValue) : embedEntryOk ("thumbnail", v) = isObj v := by
  simp [embedEntryOk]

theorem embedEntryOk_provider (v : JSValue) : embedEntryOk ("provider", v) = isObj v := by
  simp [embedEntryOk]

theorem embedEntryOk_fields (v : JSValue) : embedEntryOk ("fields", v) = fieldsOk v := by
  simp [embedEntryOk]

theorem objGet_ite_single {c : Prop} [Decidable c] (k : String) (v : JSValue) :
    objGet (if c then [(k, v)] else []) k = if c then some v else none := by
  split <;> simp [objGet]

namespace V32.EmbedStep

theorem stepTitle_objGet_ne (embed : JSValue) (es : List (String × JSValue))
    (k : String) (h : k ≠ "title") : objGet (stepTitle embed es) k = objGet es k := by
  simp only [stepTitle]
  exact objGet_ite_objSet_ne es "title" _ k h

theorem stepDescription_objGet_ne (embed : JSValue) (es : List (String × JSValue))
    (k : String) (h : k ≠ "description") :
    objGet (stepDescription embed es) k = objGet es k := by
  simp only [stepDescription]
  exact objGet_ite_objSet_ne es "description" _ k h

theorem stepUrl_objGet_ne (embed : JSValue) (es : List (String × JSValue))
    (k : String) (h : k ≠ "url") : objGet (stepUrl embed es) k = objGet es k := by
  simp only [stepUrl]
  exact objGet_ite_objSet_ne es "url" _ k h

theorem stepTimestamp_objGet_ne (host : Host) (embed : JSValue)
    (es : List (String × JSValue)) (k : String) (h : k ≠ "timestamp") :
    objGet (stepTimestamp host embed es) k = objGet es k := by
  simp only [stepTimestamp]
  exact objGet_ite_objSet_ne es "timestamp" _ k h

theorem stepColor_objGet_ne (embed : JSValue) (es : List (String × JSValue))
    (k : String) (h : k ≠ "color") : objGet (stepColor embed es) k = objGet es k := by
  simp only [stepColor]
  exact objGet_ite_objSet_ne es "color" _ k h

theorem stepFooter_objGet_ne (embed : JSValue) (es : List (String × JSValue))
    (k : String) (h : k ≠ "footer") : objGet (stepFooter embed es) k = objGet es k := by
  simp only [stepFooter]
  split
  · exact objGet_objSet_ne es "footer" k _ h
  · rfl

theorem stepImage_objGet_ne (embed : JSValue) (es : List (String × JSValue))
    (k : String) (h : k ≠ "image") : objGet (stepImage embed es) k = objGet es k := by
  simp only [stepImage]
  split
  · exact objGet_objSet_ne es "image" k _ h
  · rfl

theorem stepThumbnail_objGet_ne (embed : JSValue) (es : List (String × JSValue))
    (k : String) (h : k ≠ "thumbnail") :
    objGet (stepThumbnail embed es) k = objGet es k := by
  simp only [stepThumbnail]
  exact objGet_ite_objSet_ne es "thumbnail" _ k h

theorem stepAuthor_objGet_ne (embed : JSValue) (es : List (String × JSValue))
    (k : String) (h : k ≠ "author") : objGet (stepAuthor embed es) k = objGet es k := by
  simp only [stepAuthor]
  split
  · exact objGet_objSet_ne es "author" k _ h
  · rfl

theorem stepProvider_objGet_ne (embed : JSValue) (es : List (String × JSValue))
    (k : String) (h : k ≠ "provider") :
    objGet (stepProvider embed es) k = objGet es k := by
  simp only [stepProvider]
  split
  · exact objGet_objSet_ne es "provider" k _ h
  · rfl

theorem stepFields_objGet_ne (embed : JSValue) (es : List (String × JSValue))
    (k : String) (h : k ≠ "fields") : objGet (stepFields embed es) k = objGet es k := by
  simp only [stepFields]
  split
  · split
    · exact objGet_objSet_ne es "fields" k _ h
    · rfl
  · rfl

theorem stepFields_of_not_arr (embed : JSValue) (es : List (String × JSValue))
    (h : isArr (getField embed "fields") = false) : stepFields embed es = es := by
  simp only [stepFields]
  split
  · rename_i l heq
    rw [heq] at h
    simp [isArr] at h
  · rfl

end V32.EmbedStep

namespace V32.EmbedStep

theorem mapField_spec (field fd : JSValue) (h : mapField field = some fd) :
    ∃ nm vl inl, fd = JSValue.obj
      [("name", .str (strTake nm 256)), ("value", .str (strTake vl 1024)),
       ("inline", .bool inl)] := by
  simp only [mapField] at h
  split at h
  · cases h
  · split at h
    · cases h
    · cases h
      exact ⟨_, _, _, rfl⟩

theorem mapField_fieldEntryOk (field fd : JSValue) (h : mapField field = some fd) :
    fieldEntryOk fd = true := by
  obtain ⟨nm, vl, inl, rfl⟩ := mapField_spec field fd h
  simp [fieldEntryOk, objGet, strTake_length_le]

theorem stepTitle_entryOk (embed : JSValue) (es : List (String × JSValue))
    (h : ∀ kv ∈ es, embedEntryOk kv = true) :
    ∀ kv ∈ stepTitle embed es, embedEntryOk kv = true := by
  intro kv hkv
  simp only [stepTitle] at hkv
  rcases mem_ite_objSet es _ _ kv hkv with hh | rfl
  · exact h kv hh
  · simp [embedEntryOk, strBoundOk, strTake_length_le]

theorem stepDescription_entryOk (embed : JSValue) (es : List (String × JSValue))
    (h : ∀ kv ∈ es, embedEntryOk kv = true) :
    ∀ kv ∈ stepDescription embed es, embedEntryOk kv = true := by
  intro kv hkv
  simp only [stepDescription] at hkv
  rcases mem_ite_objSet es _ _ kv hkv with hh | rfl
  · exact h kv hh
  · simp [embedEntryOk, strBoundOk, strTake_length_le]

theorem stepUrl_entryOk (embed : JSValue) (es : List (String × JSValue))
    (h : ∀ kv ∈ es, embedEntryOk kv = true) :
    ∀ kv ∈ stepUrl embed es, embedEntryOk kv = true := by
  intro kv hkv
  simp only [stepUrl] at hkv
  rcases mem_ite_objSet es _ _ kv hkv with hh | rfl
  · exact h kv hh
  · simp [embedEntryOk]

theorem stepTimestamp_entryOk (host : Host) (embed : JSValue)
    (es : List (String × JSValue)) (h : ∀ kv ∈ es, embedEntryOk kv = true) :
    ∀ kv ∈ stepTimestamp host embed es, embedEntryOk kv = true := by
  intro kv hkv
  simp only [stepTimestamp] at hkv
  rcases mem_ite_objSet es _ _ kv hkv with hh | rfl
  · exact h kv hh
  · simp [embedEntryOk]

theorem stepColor_entryOk (embed : JSValue) (es : List (String × JSValue))
    (h : ∀ kv ∈ es, embedEntryOk kv = true) :
    ∀ kv ∈ stepColor embed es, embedEntryOk kv = true := by
  intro kv hkv
  simp only [stepColor] at hkv
  rcases mem_ite_objSet es _ _ kv hkv with hh | rfl
  · exact h kv hh
  · simp [embedEntryOk]

theorem stepFooter_entryOk (embed : JSValue) (es : List (String × JSValue))
    (h : ∀ kv ∈ es, embedEntryOk kv = true) :
    ∀ kv ∈ stepFooter embed es, embedEntryOk kv = true := by
  intro kv hkv
  simp only [stepFooter] at hkv
  split at hkv
  · rcases mem_objSet es _ _ kv hkv with hh | rfl
    · exact h kv hh
    · rw [embedEntryOk_footer]
      simp only [objFieldBoundOk]
      rw [objGet_ite_objSet_ne _ "icon_url" _ "text" (by decide), objGet_ite_single]
      split_ifs
      · simp [strTake_length_le]
      · rfl
  · exact h kv hkv

theorem stepImage_entryOk (embed : JSValue) (es : List (String × JSValue))
    (h : ∀ kv ∈ es, embedEntryOk kv = true) :
    ∀ kv ∈ stepImage embed es, embedEntryOk kv = true := by
  intro kv hkv
  simp only [stepImage] at hkv
  split at hkv
  · rcases mem_objSet es _ _ kv hkv with hh | rfl
    · exact h kv hh
    · rw [embedEntryOk_image]
      rfl
  · exact h kv hkv

theorem stepThumbnail_entryOk (embed : JSValue) (es : List (String × JSValue))
    (h : ∀ kv ∈ es, embedEntryOk kv = true) :
    ∀ kv ∈ stepThumbnail embed es, embedEntryOk kv = true := by
  intro kv hkv
  simp only [stepThumbnail] at hkv
  rcases mem_ite_objSet es _ _ kv hkv with hh | rfl
  · exact h kv hh
  · rw [embedEntryOk_thumbnail]
    rfl

theorem stepAuthor_entryOk (embed : JSValue) (es : List (String × JSValue))
    (h : ∀ kv ∈ es, embedEntryOk kv = true) :
    ∀ kv ∈ stepAuthor embed es, embedEntryOk kv = true := by
  intro kv hkv
  simp only [stepAuthor] at hkv
  split at hkv
  · rcases mem_objSet es _ _ kv hkv with hh | rfl
    · exact h kv hh
    · rw [embedEntryOk_author]
      simp only [objFieldBoundOk]
      rw [objGet_ite_objSet_ne _ "icon_url" _ "name" (by decide),
          objGet_ite_objSet_ne _ "url" _ "name" (by decide), objGet_ite_single]
      split_ifs
      · simp [strTake_length_le]
      · rfl
  · exact h kv hkv

theorem stepProvider_entryOk (embed : JSValue) (es : List (String × JSValue))
    (h : ∀ kv ∈ es, embedEntryOk kv = true) :
    ∀ kv ∈ stepProvider embed es, embedEntryOk kv = true := by
  intro kv hkv
  simp only [stepProvider] at hkv
  split at hkv
  · rcases mem_objSet es _ _ kv hkv with hh | rfl
    · exact h kv hh
    · rw [embedEntryOk_provider]
      rfl
  · exact h kv hkv

theorem stepFields_entryOk (embed : JSValue) (es : List (String × JSValue))
    (h : ∀ kv ∈ es, embedEntryOk kv = true) :
    ∀ kv ∈ stepFields embed es, embedEntryOk kv = true := by
  intro kv hkv
  simp only [stepFields] at hkv
  split at hkv
  · rename_i fieldsList heq
    split at hkv
    · rcases mem_objSet es _ _ kv hkv with hh | rfl
      · exact h kv hh
      · rw [embedEntryOk_fields]
        simp only [fieldsOk]
        rw [Bool.and_eq_true]
        constructor
        · have h1 : ((fieldsList.take 25).filterMap mapField).length ≤
              (fieldsList.take 25).length := List.length_filterMap_le _ _
          have h2 : (fieldsList.take 25).length ≤ 25 := List.length_take_le _ _
          simp only [decide_eq_true_eq]
          omega
        · rw [List.all_eq_true]
          intro fd hfd
          rcases List.mem_filterMap.mp hfd with ⟨field, _, hmap⟩
          exact mapField_fieldEntryOk field fd hmap
    · exact h kv hkv
  · exact h kv hkv

end V32.EmbedStep

namespace V32.EmbedStep

theorem stepTitle_length_le (embed : JSValue) (es : List (String × JSValue)) :
    es.length ≤ (stepTitle embed es).length := by
  simp only [stepTitle]
  exact length_le_ite_objSet es "title" _

theorem stepDescription_length_le (embed : JSValue) (es : List (String × JSValue)) :
    es.length ≤ (stepDescription embed es).length := by
  simp only [stepDescription]
  exact length_le_ite_objSet es "description" _

theorem stepUrl_length_le (embed : JSValue) (es : List (String × JSValue)) :
    es.length ≤ (stepUrl embed es).length := by
  simp only [stepUrl]
  exact length_le_ite_objSet es "url" _

theorem stepTimestamp_length_le (host : Host) (embed : JSValue)
    (es : List (String × JSValue)) :
    es.length ≤ (stepTimestamp host embed es).length := by
  simp only [stepTimestamp]
  exact length_le_ite_objSet es "timestamp" _

theorem stepFooter_length_le (embed : JSValue) (es : List (String × JSValue)) :
    es.length ≤ (stepFooter embed es).length := by
  simp only [stepFooter]
  split
  · exact length_le_objSet_length es "footer" _
  · exact Nat.le_refl _

theorem stepImage_length_le (embed : JSValue) (es : List (String × JSValue)) :
    es.length ≤ (stepImage embed es).length := by
  simp only [stepImage]
  split
  · exact length_le_objSet_length es "image" _
  · exact Nat.le_refl _

theorem stepThumbnail_length_le (embed : JSValue) (es : List (String × JSValue)) :
    es.length ≤ (stepThumbnail embed es).length := by
  simp only [stepThumbnail]
  exact length_le_ite_objSet es "thumbnail" _

theorem stepAuthor_length_le (embed : JSValue) (es : List (String × JSValue)) :
    es.length ≤ (stepAuthor embed es).length := by
  simp only [stepAuthor]
  split
  · exact length_le_objSet_length es "author" _
  · exact Nat.le_refl _

theorem stepProvider_length_le (embed : JSValue) (es : List (String × JSValue)) :
    es.length ≤ (stepProvider embed es).length := by
  simp only [stepProvider]
  split
  · exact length_le_objSet_length es "provider" _
  · exact Nat.le_refl _

theorem stepFields_length_le (embed : JSValue) (es : List (String × JSValue)) :
    es.length ≤ (stepFields embed es).length := by
  simp only [stepFields]
  split
  · split
    · exact length_le_objSet_length es "fields" _
    · exact Nat.le_refl _
  · exact Nat.le_refl _

end V32.EmbedStep

set_option maxHeartbeats 1600000 in
/-- C7: embed validation never reports an error: `validateEmbed` is a
total function whose only outcomes are `undefined` (`none`) or a
validated embed object.  Every entry of a validated embed (3.2.0) is a
recognized key respecting its documented maximum (`embedEntryOk`); a
non-array `fields` value produces a result carrying no `fields` key (or
no embed at all when nothing else was recognized); and the simple 1.0.x
`validateEmbed` copies only `type`/`title`/`description`/`image`/
`thumbnail`. -/
theorem c7_embed_validation_never_fails (host : Host) (e emb : JSValue) :
    (V32.validateEmbed host e = some emb →
      ∃ es, emb = .obj es ∧ ∀ kv ∈ es, embedEntryOk kv = true) ∧
    (isArr (getField e "fields") = false →
      V32.validateEmbed host e = none ∨
      ∃ es, V32.validateEmbed host e = some (.obj es) ∧ objGet es "fields" = none) ∧
    (V103.validateEmbed e = some emb →
      ∃ es, emb = .obj es ∧ ∀ kv ∈ es,
        kv.1 = "type" ∨ kv.1 = "title" ∨ kv.1 = "description" ∨
        kv.1 = "image" ∨ kv.1 = "thumbnail") := by
  refine ⟨?_, ?_, ?_⟩
  · intro h
    cases he : jsTruthy e with
    | false => simp [V32.validateEmbed, he] at h
    | true =>
      simp only [V32.validateEmbed, he, Bool.not_true, Bool.false_eq_true, if_false] at h
      split at h
      · cases h
        refine ⟨_, rfl, ?_⟩
        apply V32.EmbedStep.stepFields_entryOk
        apply V32.EmbedStep.stepProvider_entryOk
        apply V32.EmbedStep.stepAuthor_entryOk
        apply V32.EmbedStep.stepThumbnail_entryOk
        apply V32.EmbedStep.stepImage_entryOk
        apply V32.EmbedStep.stepFooter_entryOk
        apply V32.EmbedStep.stepColor_entryOk
        apply V32.EmbedStep.stepTimestamp_entryOk
        apply V32.EmbedStep.stepUrl_entryOk
        apply V32.EmbedStep.stepDescription_entryOk
        apply V32.EmbedStep.stepTitle_entryOk
        intro kv hkv
        rcases List.mem_singleton.mp hkv with rfl
        simp [embedEntryOk]
      · exact absurd h (by simp)
  · intro hna
    cases he : jsTruthy e with
    | false => exact Or.inl (by simp [V32.validateEmbed, he])
    | true =>
      have hnone : objGet (V32.EmbedStep.stepProvider e (V32.EmbedStep.stepAuthor e
          (V32.EmbedStep.stepThumbnail e (V32.EmbedStep.stepImage e
          (V32.EmbedStep.stepFooter e (V32.EmbedStep.stepColor e
          (V32.EmbedStep.stepTimestamp host e (V32.EmbedStep.stepUrl e
          (V32.EmbedStep.stepDescription e (V32.EmbedStep.stepTitle e
          [("type", .str "rich")])))))))))) "fields" = none := by
        rw [V32.EmbedStep.stepProvider_objGet_ne _ _ _ (by decide),
            V32.EmbedStep.stepAuthor_objGet_ne _ _ _ (by decide),
            V32.EmbedStep.stepThumbnail_objGet_ne _ _ _ (by decide),
            V32.EmbedStep.stepImage_objGet_ne _ _ _ (by decide),
            V32.EmbedStep.stepFooter_objGet_ne _ _ _ (by decide),
            V32.EmbedStep.stepColor_objGet_ne _ _ _ (by decide),
            V32.EmbedStep.stepTimestamp_objGet_ne _ _ _ _ (by decide),
            V32.EmbedStep.stepUrl_objGet_ne _ _ _ (by decide),
            V32.EmbedStep.stepDescription_objGet_ne _ _ _ (by decide),
            V32.EmbedStep.stepTitle_objGet_ne _ _ _ (by decide)]
        rfl
      simp only [V32.validateEmbed, he, Bool.not_true, Bool.false_eq_true, if_false,
        V32.EmbedStep.stepFields_of_not_arr _ _ hna]
      split
      · exact Or.inr ⟨_, rfl, hnone⟩
      · exact Or.inl rfl
  · intro h
    cases he : jsTruthy e with
    | false => simp [V103.validateEmbed, he] at h
    | true =>
      simp only [V103.validateEmbed, he, Bool.not_true, Bool.false_eq_true, if_false] at h
      repeat' split at h
      all_goals first
      | (exact Option.noConfusion h)
      | (obtain rfl := (Option.some.inj h).symm
         refine ⟨_, rfl, ?_⟩
         intro kv hkv
         simp [objSet] at hkv
         rcases hkv with rfl | rfl | rfl | rfl | rfl <;> simp)

theorem c7_witness :
    (V32.validateEmbed cexHost
        (.obj [("title", .str "x"), ("fields", .str "nope")]) =
      some (.obj [("type", .str "rich"), ("title", .str "x")])) ∧
    (isArr (getField (JSValue.obj [("title", .str "x"), ("fields", .str "nope")]) "fields")
        = false) ∧
    (V32.validateEmbed cexHost (.obj [("title", .str "x"), ("fields", .str "nope")]) = none ∨
      ∃ es, V32.validateEmbed cexHost (.obj [("title", .str "x"), ("fields", .str "nope")])
          = some (.obj es) ∧ objGet es "fields" = none) ∧
    (∃ es, JSValue.obj [("type", .str "rich"), ("title", .str "x")] = .obj es ∧
      ∀ kv ∈ es, embedEntryOk kv = true) := by
  have h := c7_embed_validation_never_fails cexHost
    (.obj [("title", .str "x"), ("fields", .str "nope")])
    (.obj [("type", .str "rich"), ("title", .str "x")])
  refine ⟨rfl, rfl, h.2.1 rfl, h.1 rfl⟩

open V32.EmbedStep in
/-- C8: `parseColor` maps the string `"#5865F2"` to the number 5793266
(`0x5865F2`), and a numeric `color` field of a truthy embed is carried
unchanged into the validated embed's `color` entry. -/
theorem c8_color_parse_and_carry (host : Host) (e : JSValue) (n : Int)
    (he : jsTruthy e = true) (hc : getField e "color" = JSValue.num n) :
    V32.parseColor (.str "#5865F2") = some (.num 5793266) ∧
    ∃ es, V32.validateEmbed host e = some (.obj es) ∧
      objGet es "color" = some (.num n) := by
  refine ⟨rfl, ?_⟩
  have h4 : objGet (stepTimestamp host e (stepUrl e (stepDescription e
      (stepTitle e [("type", JSValue.str "rich")])))) "color" = none := by
    rw [stepTimestamp_objGet_ne _ _ _ _ (by decide),
        stepUrl_objGet_ne _ _ _ (by decide),
        stepDescription_objGet_ne _ _ _ (by decide),
        stepTitle_objGet_ne _ _ _ (by decide)]
    rfl
  have hstep : stepColor e (stepTimestamp host e (stepUrl e (stepDescription e
      (stepTitle e [("type", JSValue.str "rich")])))) =
      objSet (stepTimestamp host e (stepUrl e (stepDescription e
        (stepTitle e [("type", JSValue.str "rich")])))) "color" (JSValue.num n) := by
    simp [stepColor, hc, typeofNumber]
  have hget : objGet (stepColor e (stepTimestamp host e (stepUrl e (stepDescription e
      (stepTitle e [("type", JSValue.str "rich")]))))) "color" = some (JSValue.num n) := by
    rw [hstep]
    exact objGet_objSet_self _ _ _
  have h1 : 1 ≤ (stepTimestamp host e (stepUrl e (stepDescription e
      (stepTitle e [("type", JSValue.str "rich")])))).length := by
    have : (([("type", JSValue.str "rich")] : List (String × JSValue)).length) = 1 := rfl
    calc 1 = ([("type", JSValue.str "rich")] : List (String × JSValue)).length := rfl
      _ ≤ (stepTitle e [("type", JSValue.str "rich")]).length := stepTitle_length_le e _
      _ ≤ (stepDescription e (stepTitle e [("type", JSValue.str "rich")])).length :=
          stepDescription_length_le e _
      _ ≤ (stepUrl e (stepDescription e (stepTitle e
            [("type", JSValue.str "rich")]))).length := stepUrl_length_le e _
      _ ≤ _ := stepTimestamp_length_le host e _
  have hlen : 1 < (stepColor e (stepTimestamp host e (stepUrl e (stepDescription e
      (stepTitle e [("type", JSValue.str "rich")]))))).length := by
    rw [hstep, objSet_length_of_objGet_none _ _ _ h4]
    omega
  have hgetVE : objGet (stepFields e (stepProvider e (stepAuthor e (stepThumbnail e
      (stepImage e (stepFooter e (stepColor e (stepTimestamp host e (stepUrl e
      (stepDescription e (stepTitle e [("type", JSValue.str "rich")]))))))))))) "color" =
      some (JSValue.num n) := by
    rw [stepFields_objGet_ne _ _ _ (by decide),
        stepProvider_objGet_ne _ _ _ (by decide),
        stepAuthor_objGet_ne _ _ _ (by decide),
        stepThumbnail_objGet_ne _ _ _ (by decide),
        stepImage_objGet_ne _ _ _ (by decide),
        stepFooter_objGet_ne _ _ _ (by decide)]
    exact hget
  have hlenVE : 1 < (stepFields e (stepProvider e (stepAuthor e (stepThumbnail e
      (stepImage e (stepFooter e (stepColor e (stepTimestamp host e (stepUrl e
      (stepDescription e (stepTitle e [("type", JSValue.str "rich")]))))))))))).length :=
    lt_of_lt_of_le hlen (le_trans (stepFooter_length_le e _)
      (le_trans (stepImage_length_le e _) (le_trans (stepThumbnail_length_le e _)
        (le_trans (stepAuthor_length_le e _) (le_trans (stepProvider_length_le e _)
          (stepFields_length_le e _))))))
  refine ⟨_, ?_, hgetVE⟩
  simp only [V32.validateEmbed, he, Bool.not_true, Bool.false_eq_true, if_false]
  rw [if_pos hlenVE]

theorem c8_witness :
    V32.parseColor (.str "#5865F2") = some (.num 5793266) ∧
    ∃ es, V32.validateEmbed cexHost (.obj [("color", .num 5793266)]) = some (.obj es) ∧
      objGet es "color" = some (.num 5793266) :=
  c8_color_parse_and_carry cexHost (.obj [("color", .num 5793266)]) 5793266 rfl rfl
